import Mathlib

/-!
Verification development for the enrollment-validation reconciliation core of
the edx-analytics-pipeline repository (edx/analytics/tasks/enrollment_validation.py).

Timestamps are modelled as lists of characters (`Str`), Python string comparison
as character-wise lexicographic comparison, and the Python `datetime` library
(used by `_add_microseconds` for carry arithmetic) as a record of calendar
fields with exact second/day/month/year carry.  Python exceptions
(`int()` / `strptime` on malformed input, `None` arithmetic) are modelled by a
designated error string; every theorem below operates away from those cases.
-/

namespace EnrollVal

/-- Python strings restricted to the data handled here: lists of characters. -/
abbrev Str := List Char

/-- Three-way lexicographic comparison of character lists, matching Python
string comparison for the ASCII data used by the pipeline. -/
def lexCmp : Str → Str → Ordering
  | [], [] => Ordering.eq
  | [], _ :: _ => Ordering.lt
  | _ :: _, [] => Ordering.gt
  | a :: as, b :: bs =>
    if a < b then Ordering.lt else if b < a then Ordering.gt else lexCmp as bs

/-- Python `s < t` on strings. -/
def strLt (s t : Str) : Bool := lexCmp s t == Ordering.lt

/-- Python `s >= t` on strings (negation of `<`). -/
def strGe (s t : Str) : Bool := !(strLt s t)

theorem lexCmp_self (s : Str) : lexCmp s s = Ordering.eq := by
  induction s with
  | nil => rfl
  | cons a as ih => simp [lexCmp, lt_irrefl, ih]

theorem lexCmp_eq_iff {s t : Str} : lexCmp s t = Ordering.eq ↔ s = t := by
  constructor
  · intro h
    induction s generalizing t with
    | nil => cases t with
      | nil => rfl
      | cons b bs => simp [lexCmp] at h
    | cons a as ih =>
      cases t with
      | nil => simp [lexCmp] at h
      | cons b bs =>
        by_cases hab : a < b
        · simp [lexCmp, hab] at h
        · by_cases hba : b < a
          · simp [lexCmp, hab, hba] at h
          · have hEq : a = b := le_antisymm (not_lt.1 hba) (not_lt.1 hab)
            subst hEq
            simp only [lexCmp, if_neg hab, if_neg hba] at h
            rw [ih h]
  · intro h; subst h; exact lexCmp_self s

theorem lexCmp_swap (s t : Str) : lexCmp t s = (lexCmp s t).swap := by
  induction s generalizing t with
  | nil => cases t <;> rfl
  | cons a as ih =>
    cases t with
    | nil => rfl
    | cons b bs =>
      rcases lt_trichotomy a b with hab | hab | hab
      · have hba : ¬ b < a := lt_asymm hab
        simp [lexCmp, hab, hba, Ordering.swap]
      · subst hab
        simp [lexCmp, lt_irrefl, ih bs]
      · have hba : ¬ a < b := lt_asymm hab
        simp [lexCmp, hab, hba, Ordering.swap]

theorem lexCmp_lt_trans {s t u : Str} (h1 : lexCmp s t = Ordering.lt)
    (h2 : lexCmp t u = Ordering.lt) : lexCmp s u = Ordering.lt := by
  induction s generalizing t u with
  | nil =>
    cases u with
    | nil =>
      cases t with
      | nil => exact h1
      | cons b bs => simp [lexCmp] at h2
    | cons c cs => rfl
  | cons a as ih =>
    cases t with
    | nil => simp [lexCmp] at h1
    | cons b bs =>
      cases u with
      | nil => simp [lexCmp] at h2
      | cons c cs =>
        rcases lt_trichotomy a b with hab | hab | hab
        · rcases lt_trichotomy b c with hbc | hbc | hbc
          · simp [lexCmp, lt_trans hab hbc]
          · subst hbc
            simp [lexCmp, hab]
          · simp [lexCmp, lt_asymm hbc, hbc] at h2
        · subst hab
          simp only [lexCmp, if_neg (lt_irrefl a)] at h1
          rcases lt_trichotomy a c with hac | hac | hac
          · simp [lexCmp, hac]
          · subst hac
            simp only [lexCmp, if_neg (lt_irrefl a)] at h2 ⊢
            exact ih h1 h2
          · simp [lexCmp, lt_asymm hac, hac] at h2
        · simp [lexCmp, lt_asymm hab, hab] at h1

theorem lexCmp_append_left (p : Str) {s t : Str} :
    lexCmp (p ++ s) (p ++ t) = lexCmp s t := by
  induction p with
  | nil => rfl
  | cons a as ih => simp [lexCmp, lt_irrefl, ih]

theorem lexCmp_append_lt {a b : Str} (h : lexCmp a b = Ordering.lt)
    (hl : a.length = b.length) (c d : Str) :
    lexCmp (a ++ c) (b ++ d) = Ordering.lt := by
  induction a generalizing b with
  | nil =>
    cases b with
    | nil => simp [lexCmp_self] at h
    | cons x xs => simp at hl
  | cons x xs ih =>
    cases b with
    | nil => simp at hl
    | cons y ys =>
      by_cases hxy : x < y
      · simp [lexCmp, hxy]
      · by_cases hyx : y < x
        · simp [lexCmp, hxy, hyx] at h
        · have hEq : x = y := le_antisymm (not_lt.1 hyx) (not_lt.1 hxy)
          subst hEq
          simp only [lexCmp, if_neg hxy, List.cons_append] at h ⊢
          exact ih h (by simpa using hl)

/-- The decimal digit characters. -/
def digitChar : Nat → Char
  | 0 => '0'
  | 1 => '1'
  | 2 => '2'
  | 3 => '3'
  | 4 => '4'
  | 5 => '5'
  | 6 => '6'
  | 7 => '7'
  | 8 => '8'
  | _ => '9'

/-- Zero-padded decimal rendering of `n` to exactly `w` digits
(the value of Python `str(n).zfill(w)` whenever `n < 10 ^ w`). -/
def zpad : Nat → Nat → Str
  | 0, _ => []
  | w + 1, n => digitChar (n / 10 ^ w) :: zpad w (n % 10 ^ w)

theorem zpad_length (w n : Nat) : (zpad w n).length = w := by
  induction w generalizing n with
  | zero => rfl
  | succ w ih => simp [zpad, ih]

theorem zpad_ne_nil {w n : Nat} (hw : 0 < w) : zpad w n ≠ [] := by
  intro h
  have := zpad_length w n
  rw [h] at this
  simp at this
  omega

theorem digitChar_lt {a b : Nat} (hab : a < b) (hb : b ≤ 9) :
    digitChar a < digitChar b := by
  interval_cases b <;> interval_cases a <;> decide

theorem digitChar_ne_of_lt {a b : Nat} (hab : a < b) (hb : b ≤ 9) :
    digitChar a ≠ digitChar b := by
  intro h
  exact absurd (h ▸ digitChar_lt hab hb) (lt_irrefl _)

theorem zpad_lt {w n m : Nat} (hm : m < 10 ^ w) (h : n < m) :
    lexCmp (zpad w n) (zpad w m) = Ordering.lt := by
  induction w generalizing n m with
  | zero =>
    simp at hm
    omega
  | succ w ih =>
    have hP : 0 < 10 ^ w := Nat.pos_pow_of_pos w (by norm_num)
    have hdle : n / 10 ^ w ≤ m / 10 ^ w := Nat.div_le_div_right (le_of_lt h)
    have hmul : m < 10 ^ w * 10 := by rw [← pow_succ]; exact hm
    have hm9 : m / 10 ^ w ≤ 9 := by
      have := Nat.div_lt_of_lt_mul hmul
      omega
    rcases Nat.lt_or_ge (n / 10 ^ w) (m / 10 ^ w) with hdlt | hdge
    · have hc : digitChar (n / 10 ^ w) < digitChar (m / 10 ^ w) := digitChar_lt hdlt hm9
      simp [zpad, lexCmp, hc]
    · have hdEq : n / 10 ^ w = m / 10 ^ w := le_antisymm hdle hdge
      have hmod : n % 10 ^ w < m % 10 ^ w := by
        have h1 := Nat.div_add_mod n (10 ^ w)
        have h2 := Nat.div_add_mod m (10 ^ w)
        rw [← hdEq] at h2
        omega
      have hmodm : m % 10 ^ w < 10 ^ w := Nat.mod_lt _ hP
      simp only [zpad, hdEq, lexCmp, lt_irrefl, if_neg (lt_irrefl _)]
      exact ih hmodm hmod

/-- Numeric value of a digit character (used to model Python `int`). -/
def digitVal (c : Char) : Option Nat :=
  if c.isDigit then some (c.toNat - 48) else none

/-- Accumulating decimal parse; fails on any non-digit character. -/
def parseDigitsAux : Str → Nat → Option Nat
  | [], acc => some acc
  | c :: cs, acc =>
    match digitVal c with
    | some d => parseDigitsAux cs (acc * 10 + d)
    | none => none

/-- Python `int(s)` restricted to the non-negative digit strings the pipeline
feeds it; `none` models the `ValueError` raised on anything else. -/
def pyInt (l : Str) : Option Nat :=
  if l.isEmpty then none else parseDigitsAux l 0

theorem digitVal_digitChar {d : Nat} (hd : d ≤ 9) : digitVal (digitChar d) = some d := by
  interval_cases d <;> decide

theorem parseDigitsAux_zpad_append (w : Nat) :
    ∀ (n acc : Nat) (r : Str), n < 10 ^ w →
      parseDigitsAux (zpad w n ++ r) acc = parseDigitsAux r (acc * 10 ^ w + n) := by
  induction w with
  | zero =>
    intro n acc r hn
    simp at hn
    subst hn
    simp [zpad]
  | succ w ih =>
    intro n acc r hn
    have hP : 0 < 10 ^ w := Nat.pos_pow_of_pos w (by norm_num)
    have hmul : n < 10 ^ w * 10 := by rw [← pow_succ]; exact hn
    have hq9 : n / 10 ^ w ≤ 9 := by
      have := Nat.div_lt_of_lt_mul hmul
      omega
    have hmod : n % 10 ^ w < 10 ^ w := Nat.mod_lt _ hP
    have step1 : parseDigitsAux (zpad (w + 1) n ++ r) acc
        = parseDigitsAux (zpad w (n % 10 ^ w) ++ r) (acc * 10 + n / 10 ^ w) := by
      show parseDigitsAux (digitChar (n / 10 ^ w) :: (zpad w (n % 10 ^ w) ++ r)) acc = _
      simp [parseDigitsAux, digitVal_digitChar hq9]
    rw [step1, ih (n % 10 ^ w) (acc * 10 + n / 10 ^ w) r hmod]
    congr 1
    have h1 := Nat.div_add_mod n (10 ^ w)
    calc (acc * 10 + n / 10 ^ w) * 10 ^ w + n % 10 ^ w
        = acc * (10 ^ w * 10) + (10 ^ w * (n / 10 ^ w) + n % 10 ^ w) := by ring
    _ = acc * (10 ^ w * 10) + n := by rw [h1]
    _ = acc * 10 ^ (w + 1) + n := by rw [pow_succ]

theorem pyInt_zpad {w n : Nat} (hw : 0 < w) (hn : n < 10 ^ w) :
    pyInt (zpad w n) = some n := by
  have hne : zpad w n ≠ [] := zpad_ne_nil hw
  have : zpad w n ++ [] = zpad w n := List.append_nil _
  rw [pyInt, if_neg (by simpa [List.isEmpty_iff] using hne)]
  rw [← this, parseDigitsAux_zpad_append w n 0 [] hn]
  simp [parseDigitsAux]

theorem digitChar_isDigit : ∀ d : Nat, (digitChar d).isDigit = true
  | 0 | 1 | 2 | 3 | 4 | 5 | 6 | 7 | 8 => by decide
  | _ + 9 => rfl

theorem zpad_all_digits {w n : Nat} : ∀ c ∈ zpad w n, c.isDigit = true := by
  induction w generalizing n with
  | zero => intro c hc; simp [zpad] at hc
  | succ w ih =>
    intro c hc
    simp only [zpad, List.mem_cons] at hc
    rcases hc with h | h
    · subst h
      exact digitChar_isDigit _
    · exact ih c h

/-- Model of Python `timestamp.partition(".")`: the part before the first dot,
and (when a dot occurs) the part after it. -/
def partitionDot : Str → Str × Option Str
  | [] => ([], none)
  | c :: cs =>
    if c = '.' then ([], some cs)
    else
      let p := partitionDot cs
      (c :: p.1, p.2)

theorem partitionDot_append {p : Str} (hp : ∀ c ∈ p, c ≠ '.') (r : Str) :
    partitionDot (p ++ '.' :: r) = (p, some r) := by
  induction p with
  | nil => simp [partitionDot]
  | cons c cs ih =>
    have hc : c ≠ '.' := hp c (List.mem_cons_self c cs)
    have hcs : ∀ x ∈ cs, x ≠ '.' := fun x hx => hp x (List.mem_cons_of_mem c hx)
    simp [partitionDot, hc, ih hcs]

/-! Calendar model of the Python `datetime` library, used by `_add_microseconds`
for carry arithmetic (`strptime` + `timedelta` + `isoformat`). -/

/-- Gregorian leap-year test (`calendar.isleap`). -/
def isLeap (y : Nat) : Bool := decide (y % 4 = 0 ∧ (y % 100 ≠ 0 ∨ y % 400 = 0))

/-- Number of days in a month of a given year. -/
def daysInMonth (y m : Nat) : Nat :=
  if m = 2 then (if isLeap y then 29 else 28)
  else if m = 4 ∨ m = 6 ∨ m = 9 ∨ m = 11 then 30
  else 31

/-- Number of days in a year. -/
def daysInYear (y : Nat) : Nat := if isLeap y then 366 else 365

/-- Number of leap years among `1, ..., n`. -/
def leapsBefore (n : Nat) : Nat := n / 4 - n / 100 + n / 400

/-- Days in all years strictly before year `y` (proleptic Gregorian, year 1 first). -/
def daysBeforeYear (y : Nat) : Nat := 365 * (y - 1) + leapsBefore (y - 1)

/-- Days in all months of year `y` strictly before month `m`. -/
def daysBeforeMonth (y m : Nat) : Nat :=
  (match m with
   | 0 => 0 | 1 => 0 | 2 => 31 | 3 => 59 | 4 => 90 | 5 => 120 | 6 => 151
   | 7 => 181 | 8 => 212 | 9 => 243 | 10 => 273 | 11 => 304 | _ => 334)
  + (if 3 ≤ m ∧ isLeap y then 1 else 0)

/-- The calendar fields of a `datetime.datetime` value (no time zone: the
pipeline's timestamps are naive). -/
structure DateTime where
  year : Nat
  month : Nat
  day : Nat
  hour : Nat
  minute : Nat
  second : Nat
  microsecond : Nat
deriving DecidableEq

/-- Days elapsed from 0001-01-01 to the date of `dt`. -/
def daysSinceEpoch (dt : DateTime) : Nat :=
  daysBeforeYear dt.year + daysBeforeMonth dt.year dt.month + (dt.day - 1)

/-- Seconds elapsed from 0001-01-01T00:00:00 to `dt` (ignoring microseconds). -/
def toSeconds (dt : DateTime) : Nat :=
  daysSinceEpoch dt * 86400 + dt.hour * 3600 + dt.minute * 60 + dt.second

/-- Microseconds elapsed from 0001-01-01T00:00:00.000000 to `dt`. -/
def toMicros (dt : DateTime) : Nat := toSeconds dt * 1000000 + dt.microsecond

/-- Field-range validity of a `DateTime` (what the `datetime` constructor
validates, minus the year upper bound). -/
def validFields (dt : DateTime) : Prop :=
  1 ≤ dt.year ∧ 1 ≤ dt.month ∧ dt.month ≤ 12 ∧ 1 ≤ dt.day ∧
  dt.day ≤ daysInMonth dt.year dt.month ∧ dt.hour ≤ 23 ∧ dt.minute ≤ 59 ∧
  dt.second ≤ 59 ∧ dt.microsecond ≤ 999999

instance : DecidablePred validFields := fun dt => by unfold validFields; infer_instance

/-- A well-formed `datetime` value: valid fields with the year inside
`datetime`'s representable range `1..9999`. -/
def validDT (dt : DateTime) : Prop := validFields dt ∧ dt.year ≤ 9999

instance : DecidablePred validDT := fun dt => by unfold validDT; infer_instance

/-- Advance `dt` by one second, carrying through minute, hour, day, month, year. -/
def nextSecond (dt : DateTime) : DateTime :=
  if dt.second + 1 ≤ 59 then { dt with second := dt.second + 1 }
  else if dt.minute + 1 ≤ 59 then { dt with second := 0, minute := dt.minute + 1 }
  else if dt.hour + 1 ≤ 23 then { dt with second := 0, minute := 0, hour := dt.hour + 1 }
  else if dt.day + 1 ≤ daysInMonth dt.year dt.month then
    { dt with second := 0, minute := 0, hour := 0, day := dt.day + 1 }
  else if dt.month + 1 ≤ 12 then
    { dt with second := 0, minute := 0, hour := 0, day := 1, month := dt.month + 1 }
  else
    { dt with second := 0, minute := 0, hour := 0, day := 1, month := 1, year := dt.year + 1 }

/-- Move `dt` back by one second, borrowing through minute, hour, day, month, year. -/
def prevSecond (dt : DateTime) : DateTime :=
  if 1 ≤ dt.second then { dt with second := dt.second - 1 }
  else if 1 ≤ dt.minute then { dt with second := 59, minute := dt.minute - 1 }
  else if 1 ≤ dt.hour then { dt with second := 59, minute := 59, hour := dt.hour - 1 }
  else if 2 ≤ dt.day then
    { dt with second := 59, minute := 59, hour := 23, day := dt.day - 1 }
  else if 2 ≤ dt.month then
    { dt with second := 59, minute := 59, hour := 23, day := daysInMonth dt.year (dt.month - 1), month := dt.month - 1 }
  else
    { dt with second := 59, minute := 59, hour := 23, day := 31, month := 12, year := dt.year - 1 }

/-- One microsecond forward (`dt + timedelta(microseconds=1)`). -/
def pyAddMicro1 (dt : DateTime) : DateTime :=
  if dt.microsecond + 1 ≤ 999999 then { dt with microsecond := dt.microsecond + 1 }
  else { nextSecond dt with microsecond := 0 }

/-- One microsecond backward (`dt - timedelta(microseconds=1)`). -/
def pySubMicro1 (dt : DateTime) : DateTime :=
  if 1 ≤ dt.microsecond then { dt with microsecond := dt.microsecond - 1 }
  else { prevSecond dt with microsecond := 999999 }

/-- `dt + timedelta(microseconds=n)`, realised by iterating the one-microsecond
steps (extensionally the library's addition for in-range results; the source
only ever calls it with `n = 1` or `n = -1`). -/
def addMicrosDT (dt : DateTime) : Int → DateTime
  | Int.ofNat n => pyAddMicro1^[n] dt
  | Int.negSucc n => pySubMicro1^[n + 1] dt

theorem one_le_daysInMonth (y m : Nat) : 1 ≤ daysInMonth y m := by
  unfold daysInMonth
  repeat' split
  all_goals omega

theorem daysInMonth_le (y m : Nat) : daysInMonth y m ≤ 31 := by
  unfold daysInMonth
  repeat' split
  all_goals omega

theorem daysBeforeMonth_succ {y m : Nat} (h1 : 1 ≤ m) (h2 : m ≤ 11) :
    daysBeforeMonth y (m + 1) = daysBeforeMonth y m + daysInMonth y m := by
  interval_cases m <;> by_cases hL : isLeap y <;>
    simp [daysBeforeMonth, daysInMonth, hL]

theorem daysBeforeMonth_year_end (y : Nat) :
    daysBeforeMonth y 12 + daysInMonth y 12 = daysInYear y := by
  by_cases hL : isLeap y <;> simp [daysBeforeMonth, daysInMonth, daysInYear, hL]

theorem daysBeforeMonth_one (y : Nat) : daysBeforeMonth y 1 = 0 := by
  simp [daysBeforeMonth]

theorem daysBeforeYear_succ {y : Nat} (hy : 1 ≤ y) :
    daysBeforeYear (y + 1) = daysBeforeYear y + daysInYear y := by
  unfold daysBeforeYear daysInYear leapsBefore
  by_cases hL : y % 4 = 0 ∧ (y % 100 ≠ 0 ∨ y % 400 = 0)
  · rw [if_pos (by simpa [isLeap] using hL)]
    omega
  · rw [if_neg (by simpa [isLeap] using hL)]
    omega

theorem daysBeforeYear_mono {a b : Nat} (h : a ≤ b) :
    daysBeforeYear a ≤ daysBeforeYear b := by
  unfold daysBeforeYear leapsBefore
  omega

theorem daysBeforeMonth_le {y : Nat} :
    ∀ (m2 m1 : Nat), 1 ≤ m1 → m1 ≤ m2 → m2 ≤ 12 →
      daysBeforeMonth y m1 ≤ daysBeforeMonth y m2 := by
  intro m2
  induction m2 with
  | zero => intro m1 h1 h2 _; omega
  | succ m ih =>
    intro m1 h1 h2 h3
    rcases Nat.lt_or_ge m1 (m + 1) with hlt | hge
    · have hm1 : 1 ≤ m := by omega
      have := ih m1 h1 (by omega) (by omega)
      have hsucc := daysBeforeMonth_succ (y := y) hm1 (by omega)
      have := one_le_daysInMonth y m
      omega
    · have : m1 = m + 1 := by omega
      subst this
      exact le_refl _

theorem dayOfYear_lt {y m d : Nat} (h1 : 1 ≤ m) (h2 : m ≤ 12) (h3 : 1 ≤ d)
    (h4 : d ≤ daysInMonth y m) :
    daysBeforeMonth y m + (d - 1) < daysInYear y := by
  rcases Nat.lt_or_ge m 12 with hm | hm
  · have hsucc := daysBeforeMonth_succ (y := y) h1 (by omega)
    have hle := daysBeforeMonth_le (y := y) 12 (m + 1) (by omega) (by omega) (by omega)
    have hend := daysBeforeMonth_year_end y
    omega
  · have hm12 : m = 12 := by omega
    subst hm12
    have hend := daysBeforeMonth_year_end y
    omega

theorem toSeconds_nextSecond {dt : DateTime} (h : validFields dt) :
    toSeconds (nextSecond dt) = toSeconds dt + 1 := by
  obtain ⟨hy, hm1, hm2, hd1, hd2, hh, hmin, hs, hmu⟩ := h
  unfold nextSecond
  by_cases c1 : dt.second + 1 ≤ 59
  · simp only [if_pos c1, toSeconds, daysSinceEpoch]
    omega
  rw [if_neg c1]
  by_cases c2 : dt.minute + 1 ≤ 59
  · simp only [if_pos c2, toSeconds, daysSinceEpoch]
    omega
  rw [if_neg c2]
  by_cases c3 : dt.hour + 1 ≤ 23
  · simp only [if_pos c3, toSeconds, daysSinceEpoch]
    omega
  rw [if_neg c3]
  by_cases c4 : dt.day + 1 ≤ daysInMonth dt.year dt.month
  · simp only [if_pos c4, toSeconds, daysSinceEpoch]
    omega
  rw [if_neg c4]
  by_cases c5 : dt.month + 1 ≤ 12
  · have hsucc := daysBeforeMonth_succ (y := dt.year) hm1 (by omega)
    simp only [if_pos c5, toSeconds, daysSinceEpoch]
    omega
  · have hm12 : dt.month = 12 := by omega
    have hend := daysBeforeMonth_year_end dt.year
    have hsucc := daysBeforeYear_succ hy
    have hone := daysBeforeMonth_one (dt.year + 1)
    simp only [if_neg c5, toSeconds, daysSinceEpoch]
    rw [hm12] at hd2 c4 ⊢
    omega

theorem toSeconds_prevSecond {dt : DateTime} (h : validFields dt)
    (hpos : 0 < toSeconds dt) :
    toSeconds (prevSecond dt) + 1 = toSeconds dt := by
  obtain ⟨hy, hm1, hm2, hd1, hd2, hh, hmin, hs, hmu⟩ := h
  unfold prevSecond
  by_cases c1 : 1 ≤ dt.second
  · simp only [if_pos c1, toSeconds, daysSinceEpoch]
    omega
  rw [if_neg c1]
  by_cases c2 : 1 ≤ dt.minute
  · simp only [if_pos c2, toSeconds, daysSinceEpoch]
    omega
  rw [if_neg c2]
  by_cases c3 : 1 ≤ dt.hour
  · simp only [if_pos c3, toSeconds, daysSinceEpoch]
    omega
  rw [if_neg c3]
  by_cases c4 : 2 ≤ dt.day
  · simp only [if_pos c4, toSeconds, daysSinceEpoch]
    omega
  rw [if_neg c4]
  by_cases c5 : 2 ≤ dt.month
  · have hsucc := daysBeforeMonth_succ (y := dt.year) (m := dt.month - 1) (by omega) (by omega)
    have := one_le_daysInMonth dt.year (dt.month - 1)
    simp only [if_pos c5, toSeconds, daysSinceEpoch]
    have hrw : dt.month - 1 + 1 = dt.month := by omega
    rw [hrw] at hsucc
    omega
  · -- day = 1, month = 1, time-of-day zero: borrow a whole year
    have hm1v : dt.month = 1 := by omega
    have hd1v : dt.day = 1 := by omega
    have hzero : dt.second = 0 ∧ dt.minute = 0 ∧ dt.hour = 0 := by omega
    have hdays : 0 < daysSinceEpoch dt := by
      unfold toSeconds at hpos
      omega
    have hy2 : 2 ≤ dt.year := by
      by_contra hcon
      have hy1 : dt.year = 1 := by omega
      unfold daysSinceEpoch at hdays
      rw [hy1, hm1v, hd1v] at hdays
      simp [daysBeforeYear, leapsBefore, daysBeforeMonth_one] at hdays
    have hsuccy := daysBeforeYear_succ (y := dt.year - 1) (by omega)
    have hend := daysBeforeMonth_year_end (dt.year - 1)
    have hone1 := daysBeforeMonth_one dt.year
    have hone2 := daysBeforeMonth_one (dt.year - 1)
    have hrwy : dt.year - 1 + 1 = dt.year := by omega
    rw [hrwy] at hsuccy
    have hdim12 : daysInMonth (dt.year - 1) 12 = 31 := by
      unfold daysInMonth
      norm_num
    simp only [if_neg c5, toSeconds, daysSinceEpoch]
    rw [hm1v, hd1v] at *
    omega

theorem daysInMonth_twelve (y : Nat) : daysInMonth y 12 = 31 := by
  unfold daysInMonth
  norm_num

theorem validFields_nextSecond {dt : DateTime} (h : validFields dt) :
    validFields (nextSecond dt) := by
  obtain ⟨hy, hm1, hm2, hd1, hd2, hh, hmin, hs, hmu⟩ := h
  have hdim1 := one_le_daysInMonth dt.year (dt.month + 1)
  have hdim2 := one_le_daysInMonth (dt.year + 1) 1
  unfold nextSecond
  by_cases c1 : dt.second + 1 ≤ 59
  · rw [if_pos c1]
    refine ⟨?_, ?_, ?_, ?_, ?_, ?_, ?_, ?_, ?_⟩ <;> (try simp) <;> omega
  rw [if_neg c1]
  by_cases c2 : dt.minute + 1 ≤ 59
  · rw [if_pos c2]
    refine ⟨?_, ?_, ?_, ?_, ?_, ?_, ?_, ?_, ?_⟩ <;> (try simp) <;> omega
  rw [if_neg c2]
  by_cases c3 : dt.hour + 1 ≤ 23
  · rw [if_pos c3]
    refine ⟨?_, ?_, ?_, ?_, ?_, ?_, ?_, ?_, ?_⟩ <;> (try simp) <;> omega
  rw [if_neg c3]
  by_cases c4 : dt.day + 1 ≤ daysInMonth dt.year dt.month
  · rw [if_pos c4]
    refine ⟨?_, ?_, ?_, ?_, ?_, ?_, ?_, ?_, ?_⟩ <;> (try simp) <;> omega
  rw [if_neg c4]
  by_cases c5 : dt.month + 1 ≤ 12
  · rw [if_pos c5]
    refine ⟨?_, ?_, ?_, ?_, ?_, ?_, ?_, ?_, ?_⟩ <;> (try simp) <;> omega
  · rw [if_neg c5]
    refine ⟨?_, ?_, ?_, ?_, ?_, ?_, ?_, ?_, ?_⟩ <;> (try simp) <;> omega

theorem validFields_prevSecond {dt : DateTime} (h : validFields dt)
    (hpos : 0 < toSeconds dt) : validFields (prevSecond dt) := by
  obtain ⟨hy, hm1, hm2, hd1, hd2, hh, hmin, hs, hmu⟩ := h
  have hdim1 := one_le_daysInMonth dt.year (dt.month - 1)
  unfold prevSecond
  by_cases c1 : 1 ≤ dt.second
  · rw [if_pos c1]
    refine ⟨?_, ?_, ?_, ?_, ?_, ?_, ?_, ?_, ?_⟩ <;> (try simp) <;> omega
  rw [if_neg c1]
  by_cases c2 : 1 ≤ dt.minute
  · rw [if_pos c2]
    refine ⟨?_, ?_, ?_, ?_, ?_, ?_, ?_, ?_, ?_⟩ <;> (try simp) <;> omega
  rw [if_neg c2]
  by_cases c3 : 1 ≤ dt.hour
  · rw [if_pos c3]
    refine ⟨?_, ?_, ?_, ?_, ?_, ?_, ?_, ?_, ?_⟩ <;> (try simp) <;> omega
  rw [if_neg c3]
  by_cases c4 : 2 ≤ dt.day
  · rw [if_pos c4]
    refine ⟨?_, ?_, ?_, ?_, ?_, ?_, ?_, ?_, ?_⟩ <;> (try simp) <;> omega
  rw [if_neg c4]
  by_cases c5 : 2 ≤ dt.month
  · rw [if_pos c5]
    refine ⟨?_, ?_, ?_, ?_, ?_, ?_, ?_, ?_, ?_⟩ <;> (try simp) <;> omega
  · -- would borrow a year; the year must be at least 2 because time is positive
    have hm1v : dt.month = 1 := by omega
    have hd1v : dt.day = 1 := by omega
    have hdays : 0 < daysSinceEpoch dt := by
      unfold toSeconds at hpos
      omega
    have hy2 : 2 ≤ dt.year := by
      by_contra hcon
      have hy1 : dt.year = 1 := by omega
      unfold daysSinceEpoch at hdays
      rw [hy1, hm1v, hd1v] at hdays
      simp [daysBeforeYear, leapsBefore, daysBeforeMonth_one] at hdays
    have hdim12 := daysInMonth_twelve (dt.year - 1)
    rw [if_neg c5]
    refine ⟨?_, ?_, ?_, ?_, ?_, ?_, ?_, ?_, ?_⟩ <;> (try simp) <;> omega

theorem toSeconds_set_micro (dt : DateTime) (n : Nat) :
    toSeconds { dt with microsecond := n } = toSeconds dt := rfl

theorem toMicros_pyAddMicro1 {dt : DateTime} (h : validFields dt) :
    toMicros (pyAddMicro1 dt) = toMicros dt + 1 := by
  unfold pyAddMicro1
  by_cases c : dt.microsecond + 1 ≤ 999999
  · rw [if_pos c]
    simp [toMicros, toSeconds_set_micro]
    omega
  · have hmu : dt.microsecond = 999999 := by
      obtain ⟨_, _, _, _, _, _, _, _, hmu⟩ := h
      omega
    rw [if_neg c]
    have hnext := toSeconds_nextSecond h
    simp [toMicros, toSeconds_set_micro, hnext, hmu]
    ring

theorem toMicros_pySubMicro1 {dt : DateTime} (h : validFields dt)
    (hpos : 0 < toMicros dt) :
    toMicros (pySubMicro1 dt) + 1 = toMicros dt := by
  unfold pySubMicro1
  by_cases c : 1 ≤ dt.microsecond
  · rw [if_pos c]
    simp [toMicros, toSeconds_set_micro]
    omega
  · have hmu : dt.microsecond = 0 := by omega
    have hsec : 0 < toSeconds dt := by
      unfold toMicros at hpos
      omega
    rw [if_neg c]
    have hprev := toSeconds_prevSecond h hsec
    simp [toMicros, toSeconds_set_micro, hmu]
    omega

theorem validFields_pyAddMicro1 {dt : DateTime} (h : validFields dt) :
    validFields (pyAddMicro1 dt) := by
  unfold pyAddMicro1
  by_cases c : dt.microsecond + 1 ≤ 999999
  · rw [if_pos c]
    obtain ⟨hy, hm1, hm2, hd1, hd2, hh, hmin, hs, hmu⟩ := h
    exact ⟨hy, hm1, hm2, hd1, hd2, hh, hmin, hs, by simpa using c⟩
  · rw [if_neg c]
    obtain ⟨hy, hm1, hm2, hd1, hd2, hh, hmin, hs, hmu⟩ := validFields_nextSecond h
    exact ⟨hy, hm1, hm2, hd1, hd2, hh, hmin, hs, by simp⟩

theorem validFields_pySubMicro1 {dt : DateTime} (h : validFields dt)
    (hpos : 0 < toMicros dt) : validFields (pySubMicro1 dt) := by
  unfold pySubMicro1
  by_cases c : 1 ≤ dt.microsecond
  · rw [if_pos c]
    obtain ⟨hy, hm1, hm2, hd1, hd2, hh, hmin, hs, hmu⟩ := h
    exact ⟨hy, hm1, hm2, hd1, hd2, hh, hmin, hs, by (try simp) <;> omega⟩
  · have hsec : 0 < toSeconds dt := by
      unfold toMicros at hpos
      omega
    rw [if_neg c]
    obtain ⟨hy, hm1, hm2, hd1, hd2, hh, hmin, hs, hmu⟩ := validFields_prevSecond h hsec
    exact ⟨hy, hm1, hm2, hd1, hd2, hh, hmin, hs, by simp⟩

/-- Microseconds at 10000-01-01T00:00:00.000000: every valid `datetime` value
lies strictly below this. -/
def microsYearTenThousand : Nat := 315537897600000000

theorem toMicros_lt_max {dt : DateTime} (h : validDT dt) :
    toMicros dt < microsYearTenThousand := by
  obtain ⟨⟨hy, hm1, hm2, hd1, hd2, hh, hmin, hs, hmu⟩, hy2⟩ := h
  have hdoy := dayOfYear_lt hm1 hm2 hd1 hd2
  have hsucc := daysBeforeYear_succ hy
  have hmono : daysBeforeYear (dt.year + 1) ≤ daysBeforeYear 10000 :=
    daysBeforeYear_mono (by omega)
  have hconc : daysBeforeYear 10000 = 3652059 := by norm_num [daysBeforeYear, leapsBefore]
  unfold toMicros toSeconds daysSinceEpoch microsYearTenThousand
  omega

theorem prevSecond_year_le (dt : DateTime) : (prevSecond dt).year ≤ dt.year := by
  unfold prevSecond
  repeat' split
  all_goals simp

theorem pySubMicro1_year_le (dt : DateTime) : (pySubMicro1 dt).year ≤ dt.year := by
  unfold pySubMicro1
  split
  · simp
  · simpa using prevSecond_year_le dt

theorem nextSecond_year {dt : DateTime} (h : validFields dt) :
    (nextSecond dt).year = dt.year ∨
      (dt.month = 12 ∧ dt.day ≥ daysInMonth dt.year dt.month ∧ dt.hour = 23 ∧
        dt.minute ≥ 59 ∧ dt.second ≥ 59 ∧ (nextSecond dt).year = dt.year + 1) := by
  obtain ⟨hy, hm1, hm2, hd1, hd2, hh, hmin, hs, hmu⟩ := h
  unfold nextSecond
  by_cases c1 : dt.second + 1 ≤ 59
  · rw [if_pos c1]; left; rfl
  rw [if_neg c1]
  by_cases c2 : dt.minute + 1 ≤ 59
  · rw [if_pos c2]; left; rfl
  rw [if_neg c2]
  by_cases c3 : dt.hour + 1 ≤ 23
  · rw [if_pos c3]; left; rfl
  rw [if_neg c3]
  by_cases c4 : dt.day + 1 ≤ daysInMonth dt.year dt.month
  · rw [if_pos c4]; left; rfl
  rw [if_neg c4]
  by_cases c5 : dt.month + 1 ≤ 12
  · rw [if_pos c5]; left; rfl
  · rw [if_neg c5]
    right
    refine ⟨by omega, by omega, by omega, by omega, by omega, rfl⟩

theorem validDT_pySubMicro1 {dt : DateTime} (h : validDT dt)
    (hpos : 0 < toMicros dt) : validDT (pySubMicro1 dt) :=
  ⟨validFields_pySubMicro1 h.1 hpos, le_trans (pySubMicro1_year_le dt) h.2⟩

theorem validDT_pyAddMicro1 {dt : DateTime} (h : validDT dt)
    (hlt : toMicros dt + 1 < microsYearTenThousand) : validDT (pyAddMicro1 dt) := by
  refine ⟨validFields_pyAddMicro1 h.1, ?_⟩
  obtain ⟨hvf, hy9⟩ := h
  by_cases c : dt.microsecond + 1 ≤ 999999
  · have : (pyAddMicro1 dt).year = dt.year := by
      unfold pyAddMicro1
      rw [if_pos c]
    omega
  · have hyr : (pyAddMicro1 dt).year = (nextSecond dt).year := by
      unfold pyAddMicro1
      rw [if_neg c]
  -- if the year rolled over, the input was the last microsecond of its year
    rcases nextSecond_year hvf with hcase | hcase
    · omega
    · obtain ⟨hmo, hda, hho, hmi, hse, hyy⟩ := hcase
      obtain ⟨hy, hm1, hm2, hd1, hd2, hh, hmin, hs, hmu⟩ := hvf
      rcases Nat.lt_or_ge dt.year 9999 with hylt | hyge
      · omega
      · exfalso
        have hy9999 : dt.year = 9999 := by omega
        have hdt : dt = ⟨9999, 12, 31, 23, 59, 59, 999999⟩ := by
          have h31 : daysInMonth dt.year dt.month = 31 := by
            rw [hmo]; exact daysInMonth_twelve dt.year
          cases dt
          simp_all
          omega
        rw [hdt] at hlt
        have : toMicros ⟨9999, 12, 31, 23, 59, 59, 999999⟩ = microsYearTenThousand - 1 := by
          norm_num [toMicros, toSeconds, daysSinceEpoch, daysBeforeYear, leapsBefore,
            daysBeforeMonth, daysInMonth, microsYearTenThousand, isLeap]
        omega

/-! Relating the numeric time line to the calendar fields and to the
ISO-8601 string rendering. -/

/-- Strict lexicographic order on the calendar fields. -/
def fieldsLex (a b : DateTime) : Prop :=
  a.year < b.year ∨ (a.year = b.year ∧ (a.month < b.month ∨ (a.month = b.month ∧
    (a.day < b.day ∨ (a.day = b.day ∧ (a.hour < b.hour ∨ (a.hour = b.hour ∧
      (a.minute < b.minute ∨ (a.minute = b.minute ∧ (a.second < b.second ∨
        (a.second = b.second ∧ a.microsecond < b.microsecond)))))))))))

theorem fields_trichotomy (a b : DateTime) :
    fieldsLex a b ∨
      (a.year = b.year ∧ a.month = b.month ∧ a.day = b.day ∧ a.hour = b.hour ∧
        a.minute = b.minute ∧ a.second = b.second ∧ a.microsecond = b.microsecond) ∨
      fieldsLex b a := by
  unfold fieldsLex
  omega

theorem toMicros_lt_of_days_lt {a b : DateTime} (ha : validFields a) (hb : validFields b)
    (h : daysSinceEpoch a < daysSinceEpoch b) : toMicros a < toMicros b := by
  obtain ⟨_, _, _, _, _, hh, hmin, hs, hmu⟩ := ha
  unfold toMicros toSeconds
  omega

theorem days_lt_of_year_lt {a b : DateTime} (ha : validFields a)
    (h : a.year < b.year) : daysSinceEpoch a < daysSinceEpoch b := by
  obtain ⟨hy, hm1, hm2, hd1, hd2, _, _, _, _⟩ := ha
  have h1 := dayOfYear_lt hm1 hm2 hd1 hd2
  have h2 := daysBeforeYear_succ hy
  have h3 := daysBeforeYear_mono (show a.year + 1 ≤ b.year by omega)
  unfold daysSinceEpoch
  omega

theorem days_lt_of_month_lt {a b : DateTime} (ha : validFields a) (hb : validFields b)
    (hy : a.year = b.year) (h : a.month < b.month) :
    daysSinceEpoch a < daysSinceEpoch b := by
  obtain ⟨_, hm1, hm2, hd1, hd2, _, _, _, _⟩ := ha
  obtain ⟨_, hbm1, hbm2, hbd1, hbd2, _, _, _, _⟩ := hb
  have hsucc := daysBeforeMonth_succ (y := a.year) hm1 (by omega)
  have hle := daysBeforeMonth_le (y := a.year) b.month (a.month + 1)
    (by omega) (by omega) (by omega)
  unfold daysSinceEpoch
  rw [← hy]
  omega

theorem toMicros_lt_of_fieldsLex {a b : DateTime} (ha : validFields a)
    (hb : validFields b) (h : fieldsLex a b) : toMicros a < toMicros b := by
  rcases h with h | ⟨hy, h⟩
  · exact toMicros_lt_of_days_lt ha hb (days_lt_of_year_lt ha h)
  rcases h with h | ⟨hm, h⟩
  · exact toMicros_lt_of_days_lt ha hb (days_lt_of_month_lt ha hb hy h)
  rcases h with h | ⟨hd, h⟩
  · refine toMicros_lt_of_days_lt ha hb ?_
    unfold daysSinceEpoch
    rw [hy, hm]
    obtain ⟨_, _, _, hd1, _, _, _, _, _⟩ := ha
    omega
  · have hdays : daysSinceEpoch a = daysSinceEpoch b := by
      unfold daysSinceEpoch
      rw [hy, hm, hd]
    obtain ⟨_, _, _, _, _, hh, hmin, hs, hmu⟩ := ha
    obtain ⟨_, _, _, _, _, hbh, hbmin, hbs, hbmu⟩ := hb
    unfold toMicros toSeconds
    rw [hdays]
    rcases h with h | ⟨hhour, h⟩
    · omega
    rcases h with h | ⟨hminute, h⟩
    · omega
    rcases h with h | ⟨hsec, h⟩
    · omega
    · omega

theorem toMicros_congr {a b : DateTime}
    (h : a.year = b.year ∧ a.month = b.month ∧ a.day = b.day ∧ a.hour = b.hour ∧
      a.minute = b.minute ∧ a.second = b.second ∧ a.microsecond = b.microsecond) :
    toMicros a = toMicros b := by
  obtain ⟨h1, h2, h3, h4, h5, h6, h7⟩ := h
  unfold toMicros toSeconds daysSinceEpoch
  rw [h1, h2, h3, h4, h5, h6, h7]

theorem fieldsLex_of_toMicros_lt {a b : DateTime} (ha : validFields a)
    (hb : validFields b) (h : toMicros a < toMicros b) : fieldsLex a b := by
  rcases fields_trichotomy a b with hcase | hcase | hcase
  · exact hcase
  · exact absurd (toMicros_congr hcase) (by omega)
  · exact absurd (toMicros_lt_of_fieldsLex hb ha hcase) (by omega)

/-- The head of the ISO rendering: `YYYY-MM-DDTHH:MM:SS`. -/
def fmtHead (dt : DateTime) : Str :=
  zpad 4 dt.year ++ '-' :: (zpad 2 dt.month ++ '-' :: (zpad 2 dt.day ++
    'T' :: (zpad 2 dt.hour ++ ':' :: (zpad 2 dt.minute ++ ':' :: zpad 2 dt.second))))

/-- The full microsecond-precision ISO rendering `YYYY-MM-DDTHH:MM:SS.ffffff`
(what `datetime.isoformat()` produces, with the pipeline's `.000000` padding
when the microsecond field is zero). -/
def fmtL (dt : DateTime) : Str := fmtHead dt ++ '.' :: zpad 6 dt.microsecond

theorem lexCmp_cons_same (c : Char) (x y : Str) :
    lexCmp (c :: x) (c :: y) = lexCmp x y := by
  simp [lexCmp, lt_irrefl]

theorem fmtL_lt {a b : DateTime} (ha : validDT a) (hb : validDT b)
    (h : toMicros a < toMicros b) : lexCmp (fmtL a) (fmtL b) = Ordering.lt := by
  have hlex := fieldsLex_of_toMicros_lt ha.1 hb.1 h
  obtain ⟨⟨hay, ham1, ham2, had1, had2, hah, hamin, has, hamu⟩, hay9⟩ := ha
  obtain ⟨⟨hby, hbm1, hbm2, hbd1, hbd2, hbh, hbmin, hbs, hbmu⟩, hby9⟩ := hb
  have hbd31 : b.day ≤ 31 := le_trans hbd2 (daysInMonth_le _ _)
  simp only [fmtL, fmtHead, List.append_assoc, List.cons_append]
  rcases hlex with hlt | ⟨heq, hlex⟩
  · exact lexCmp_append_lt (zpad_lt (by omega) hlt) (by simp [zpad_length]) _ _
  rw [heq, lexCmp_append_left, lexCmp_cons_same]
  rcases hlex with hlt | ⟨heq, hlex⟩
  · exact lexCmp_append_lt (zpad_lt (by omega) hlt) (by simp [zpad_length]) _ _
  rw [heq, lexCmp_append_left, lexCmp_cons_same]
  rcases hlex with hlt | ⟨heq, hlex⟩
  · exact lexCmp_append_lt (zpad_lt (by omega) hlt) (by simp [zpad_length]) _ _
  rw [heq, lexCmp_append_left, lexCmp_cons_same]
  rcases hlex with hlt | ⟨heq, hlex⟩
  · exact lexCmp_append_lt (zpad_lt (by omega) hlt) (by simp [zpad_length]) _ _
  rw [heq, lexCmp_append_left, lexCmp_cons_same]
  rcases hlex with hlt | ⟨heq, hlex⟩
  · exact lexCmp_append_lt (zpad_lt (by omega) hlt) (by simp [zpad_length]) _ _
  rw [heq, lexCmp_append_left, lexCmp_cons_same]
  rcases hlex with hlt | ⟨heq, hlex⟩
  · exact lexCmp_append_lt (zpad_lt (by omega) hlt) (by simp [zpad_length]) _ _
  rw [heq, lexCmp_append_left, lexCmp_cons_same]
  exact zpad_lt (by omega) hlex

theorem strLt_fmtL {a b : DateTime} (ha : validDT a) (hb : validDT b)
    (h : toMicros a < toMicros b) : strLt (fmtL a) (fmtL b) = true := by
  unfold strLt
  rw [fmtL_lt ha hb h]
  rfl

theorem fmtHead_no_dot (dt : DateTime) : ∀ c ∈ fmtHead dt, c ≠ '.' := by
  intro c hc
  have hdig : ∀ {w n : Nat}, c ∈ zpad w n → c ≠ '.' := by
    intro w n hmem he
    have := zpad_all_digits c hmem
    subst he
    simp at this
  unfold fmtHead at hc
  simp only [List.mem_append, List.mem_cons] at hc
  rcases hc with h | h | h | h | h | h | h | h | h | h | h
  · exact hdig h
  · subst h; decide
  · exact hdig h
  · subst h; decide
  · exact hdig h
  · subst h; decide
  · exact hdig h
  · subst h; decide
  · exact hdig h
  · subst h; decide
  · exact hdig h

/-! The string-level timestamp arithmetic of the source
(`_add_microseconds`, `_get_fake_timestamp`). -/

/-- Take exactly `w` digit characters, accumulating their value. -/
def takeDigitsAux : Nat → Nat → Str → Option (Nat × Str)
  | 0, acc, l => some (acc, l)
  | _ + 1, _, [] => none
  | w + 1, acc, c :: cs =>
    match digitVal c with
    | some d => takeDigitsAux w (acc * 10 + d) cs
    | none => none

/-- Consume one expected literal character. -/
def expectChar (c : Char) : Str → Option Str
  | [] => none
  | x :: xs => if x = c then some xs else none

/-- Model of `datetime.strptime(ts, "%Y-%m-%dT%H:%M:%S.%f")` on the canonical
fixed-width timestamps this pipeline produces: four-digit year, two-digit
month/day/hour/minute/second, a one-to-six-digit fraction right-padded to
microseconds, and the constructor's field-range validation. `none` models the
`ValueError`/`OverflowError` raised on anything else. -/
def parseTimestamp (l : Str) : Option DateTime := do
  let (y, l) ← takeDigitsAux 4 0 l
  let l ← expectChar '-' l
  let (mo, l) ← takeDigitsAux 2 0 l
  let l ← expectChar '-' l
  let (d, l) ← takeDigitsAux 2 0 l
  let l ← expectChar 'T' l
  let (h, l) ← takeDigitsAux 2 0 l
  let l ← expectChar ':' l
  let (mi, l) ← takeDigitsAux 2 0 l
  let l ← expectChar ':' l
  let (s, l) ← takeDigitsAux 2 0 l
  let frac ← expectChar '.' l
  if 1 ≤ frac.length ∧ frac.length ≤ 6 then
    match parseDigitsAux frac 0 with
    | some v =>
      let mu := v * 10 ^ (6 - frac.length)
      if 1 ≤ y ∧ y ≤ 9999 ∧ 1 ≤ mo ∧ mo ≤ 12 ∧ 1 ≤ d ∧ d ≤ daysInMonth y mo ∧
          h ≤ 23 ∧ mi ≤ 59 ∧ s ≤ 59 then
        some ⟨y, mo, d, h, mi, s, mu⟩
      else none
    | none => none
  else none

/-- Marker standing for a raised Python exception (the reducer would crash);
all theorems below stay away from inputs that produce it. -/
def errTs : Str := ['<', 'e', 'r', 'r', 'o', 'r', '>']

/-- Model of `ValidateEnrollmentForEvents._add_microseconds`: fast string math
on the fractional part when no carry is needed, otherwise
`strptime` + `timedelta` + `isoformat` (with the source's `.000000` padding of
a missing fractional part on both paths). -/
def _add_microseconds (timestamp : Str) (microseconds : Int) : Str :=
  let pd := partitionDot timestamp
  let timestamp_base := pd.1
  let frac : Str := match pd.2 with | none => [] | some f => f
  let microsec_base := if frac.isEmpty then ['0'] else frac
  let padded := if frac.isEmpty then timestamp ++ '.' :: zpad 6 0 else timestamp
  match pyInt microsec_base with
  | none => errTs
  | some mb =>
    let microsec_int : Int := (mb : Int) + microseconds
    if 0 ≤ microsec_int ∧ microsec_int < 1000000 then
      timestamp_base ++ '.' :: zpad 6 microsec_int.toNat
    else
      match parseTimestamp padded with
      | none => errTs
      | some dt => fmtL (addMicrosDT dt microseconds)

/-- Python truthiness of an optional string (`None` and `""` are falsy). -/
def truthyS : Option Str → Bool
  | none => false
  | some s => !s.isEmpty

/-- Model of `ValidateEnrollmentForEvents._get_fake_timestamp`: one microsecond
after `after` when it is truthy, else one microsecond before `before`
(`before = None` there would raise, modelled by the error marker). -/
def _get_fake_timestamp (after before : Option Str) : Str :=
  if truthyS after then _add_microseconds (after.getD []) 1
  else
    match before with
    | some b => _add_microseconds b (-1)
    | none => errTs

theorem takeDigitsAux_zpad (w : Nat) :
    ∀ (n acc : Nat) (r : Str), n < 10 ^ w →
      takeDigitsAux w acc (zpad w n ++ r) = some (acc * 10 ^ w + n, r) := by
  induction w with
  | zero =>
    intro n acc r hn
    simp at hn
    subst hn
    simp [zpad, takeDigitsAux]
  | succ w ih =>
    intro n acc r hn
    have hP : 0 < 10 ^ w := Nat.pos_pow_of_pos w (by norm_num)
    have hmul : n < 10 ^ w * 10 := by rw [← pow_succ]; exact hn
    have hq9 : n / 10 ^ w ≤ 9 := by
      have := Nat.div_lt_of_lt_mul hmul
      omega
    have hmod : n % 10 ^ w < 10 ^ w := Nat.mod_lt _ hP
    have step1 : takeDigitsAux (w + 1) acc (zpad (w + 1) n ++ r)
        = takeDigitsAux w (acc * 10 + n / 10 ^ w) (zpad w (n % 10 ^ w) ++ r) := by
      show takeDigitsAux (w + 1) acc (digitChar (n / 10 ^ w) :: (zpad w (n % 10 ^ w) ++ r)) = _
      simp [takeDigitsAux, digitVal_digitChar hq9]
    rw [step1, ih (n % 10 ^ w) (acc * 10 + n / 10 ^ w) r hmod]
    congr 2
    have h1 := Nat.div_add_mod n (10 ^ w)
    calc (acc * 10 + n / 10 ^ w) * 10 ^ w + n % 10 ^ w
        = acc * (10 ^ w * 10) + (10 ^ w * (n / 10 ^ w) + n % 10 ^ w) := by ring
    _ = acc * (10 ^ w * 10) + n := by rw [h1]
    _ = acc * 10 ^ (w + 1) + n := by rw [pow_succ]

theorem parseDigitsAux_zpad (w : Nat) {n : Nat} (hn : n < 10 ^ w) :
    parseDigitsAux (zpad w n) 0 = some n := by
  have h := parseDigitsAux_zpad_append w n 0 [] hn
  rw [List.append_nil] at h
  rw [h]
  simp [parseDigitsAux]

theorem expectChar_cons (c : Char) (xs : Str) : expectChar c (c :: xs) = some xs := by
  simp [expectChar]

set_option maxHeartbeats 1600000 in
theorem parseTimestamp_fmtL {dt : DateTime} (h : validDT dt) :
    parseTimestamp (fmtL dt) = some dt := by
  obtain ⟨⟨hy, hm1, hm2, hd1, hd2, hh, hmin, hs, hmu⟩, hy9⟩ := h
  have hy4 : dt.year < 10 ^ 4 := by norm_num; omega
  have hm4 : dt.month < 10 ^ 2 := by norm_num; omega
  have hd4 : dt.day < 10 ^ 2 := by
    have := daysInMonth_le dt.year dt.month
    norm_num
    omega
  have hh4 : dt.hour < 10 ^ 2 := by norm_num; omega
  have hmi4 : dt.minute < 10 ^ 2 := by norm_num; omega
  have hs4 : dt.second < 10 ^ 2 := by norm_num; omega
  have hmu6 : dt.microsecond < 10 ^ 6 := by norm_num; omega
  have hlen : (zpad 6 dt.microsecond).length = 6 := zpad_length 6 dt.microsecond
  have t1 := takeDigitsAux_zpad 4 dt.year 0
    ('-' :: (zpad 2 dt.month ++ '-' :: (zpad 2 dt.day ++ 'T' :: (zpad 2 dt.hour ++
      ':' :: (zpad 2 dt.minute ++ ':' :: (zpad 2 dt.second ++
        '.' :: zpad 6 dt.microsecond)))))) hy4
  have t2 := takeDigitsAux_zpad 2 dt.month 0
    ('-' :: (zpad 2 dt.day ++ 'T' :: (zpad 2 dt.hour ++ ':' :: (zpad 2 dt.minute ++
      ':' :: (zpad 2 dt.second ++ '.' :: zpad 6 dt.microsecond))))) hm4
  have t3 := takeDigitsAux_zpad 2 dt.day 0
    ('T' :: (zpad 2 dt.hour ++ ':' :: (zpad 2 dt.minute ++ ':' :: (zpad 2 dt.second ++
      '.' :: zpad 6 dt.microsecond)))) hd4
  have t4 := takeDigitsAux_zpad 2 dt.hour 0
    (':' :: (zpad 2 dt.minute ++ ':' :: (zpad 2 dt.second ++
      '.' :: zpad 6 dt.microsecond))) hh4
  have t5 := takeDigitsAux_zpad 2 dt.minute 0
    (':' :: (zpad 2 dt.second ++ '.' :: zpad 6 dt.microsecond)) hmi4
  have t6 := takeDigitsAux_zpad 2 dt.second 0 ('.' :: zpad 6 dt.microsecond) hs4
  have t7 := parseDigitsAux_zpad 6 hmu6
  simp only [fmtL, fmtHead, List.append_assoc, List.cons_append]
  unfold parseTimestamp
  simp only [t1, t2, t3, t4, t5, t6, t7, expectChar_cons, Option.bind_eq_bind,
    Option.some_bind, Nat.zero_mul, Nat.zero_add, hlen]
  norm_num
  intro hcon
  exact absurd (hcon hy hy9 hm1 hm2 hd1 hd2 hh hmin) (by omega)

theorem fmtL_set_micro (dt : DateTime) (n : Nat) :
    fmtL { dt with microsecond := n } = fmtHead dt ++ '.' :: zpad 6 n := rfl

theorem partitionDot_fmtL (dt : DateTime) :
    partitionDot (fmtL dt) = (fmtHead dt, some (zpad 6 dt.microsecond)) :=
  partitionDot_append (fmtHead_no_dot dt) _

theorem validFields_micro {dt : DateTime} (h : validDT dt) : dt.microsecond ≤ 999999 := by
  obtain ⟨⟨_, _, _, _, _, _, _, _, hmu⟩, _⟩ := h
  exact hmu

theorem add_micro_fmtL_general {dt : DateTime} (h : validDT dt) (mic : Int) :
    _add_microseconds (fmtL dt) mic =
      if 0 ≤ (dt.microsecond : Int) + mic ∧ (dt.microsecond : Int) + mic < 1000000 then
        fmtHead dt ++ '.' :: zpad 6 ((dt.microsecond : Int) + mic).toNat
      else fmtL (addMicrosDT dt mic) := by
  have hmu : dt.microsecond ≤ 999999 := validFields_micro h
  have hne : (zpad 6 dt.microsecond).isEmpty = false := by
    cases hzp : zpad 6 dt.microsecond with
    | nil => exact absurd hzp (zpad_ne_nil (by norm_num))
    | cons a l => rfl
  have hpy : pyInt (zpad 6 dt.microsecond) = some dt.microsecond :=
    pyInt_zpad (by norm_num) (by norm_num; omega)
  unfold _add_microseconds
  simp [partitionDot_fmtL, hne, hpy, parseTimestamp_fmtL h]

theorem add_one_micro_fmtL {dt : DateTime} (h : validDT dt) :
    _add_microseconds (fmtL dt) 1 = fmtL (pyAddMicro1 dt) := by
  rw [add_micro_fmtL_general h 1]
  by_cases c : dt.microsecond + 1 ≤ 999999
  · rw [if_pos (by constructor <;> omega)]
    have htn : ((dt.microsecond : Int) + 1).toNat = dt.microsecond + 1 := by omega
    have hpa : pyAddMicro1 dt = { dt with microsecond := dt.microsecond + 1 } := by
      unfold pyAddMicro1
      rw [if_pos c]
    rw [htn, hpa, fmtL_set_micro]
  · rw [if_neg (by omega)]
    have h1 : addMicrosDT dt 1 = pyAddMicro1 dt := by
      show addMicrosDT dt (Int.ofNat 1) = pyAddMicro1 dt
      unfold addMicrosDT
      simp
    rw [h1]

theorem sub_one_micro_fmtL {dt : DateTime} (h : validDT dt) :
    _add_microseconds (fmtL dt) (-1) = fmtL (pySubMicro1 dt) := by
  rw [add_micro_fmtL_general h (-1)]
  have hmu : dt.microsecond ≤ 999999 := validFields_micro h
  by_cases c : 1 ≤ dt.microsecond
  · rw [if_pos (by constructor <;> omega)]
    have htn : ((dt.microsecond : Int) + (-1)).toNat = dt.microsecond - 1 := by omega
    have hpa : pySubMicro1 dt = { dt with microsecond := dt.microsecond - 1 } := by
      unfold pySubMicro1
      rw [if_pos c]
    rw [htn, hpa, fmtL_set_micro]
  · rw [if_neg (by omega)]
    have h1 : addMicrosDT dt (-1) = pySubMicro1 dt := by
      show addMicrosDT dt (Int.negSucc 0) = pySubMicro1 dt
      unfold addMicrosDT
      simp
    rw [h1]

/-! The event model and the reconciliation core
(`CourseEnrollmentValidationTask.reducer` / `ValidateEnrollmentForEvents`). -/

def DEACTIVATED : String := "edx.course.enrollment.deactivated"

def ACTIVATED : String := "edx.course.enrollment.activated"

def VALIDATED : String := "edx.course.enrollment.validated"

def SENTINEL : String := "edx.course.enrollment.sentinel"

/-- One mapper output value `(timestamp, event_type, is_active, created)`:
`is_active`/`created` are present only on validation events. -/
structure InputTuple where
  timestamp : Str
  event_type : String
  is_active : Option Bool
  created : Option Str
deriving DecidableEq

/-- The critical information necessary to process the event in the event
stream (class `EnrollmentEvent` of the source). -/
structure EnrollmentEvent where
  timestamp : Option Str
  event_type : String
  is_active : Option Bool
  created : Option Str
deriving DecidableEq

/-- Python-2 comparison of booleans (`False < True`). -/
def cmpBool : Bool → Bool → Ordering
  | false, false => Ordering.eq
  | false, true => Ordering.lt
  | true, false => Ordering.gt
  | true, true => Ordering.eq

/-- Python-2 comparison of an optional value (`None` precedes everything). -/
def cmpOpt (f : α → α → Ordering) : Option α → Option α → Ordering
  | none, none => Ordering.eq
  | none, some _ => Ordering.lt
  | some _, none => Ordering.gt
  | some x, some y => f x y

/-- Python string comparison. -/
def cmpStr (a b : String) : Ordering := lexCmp a.data b.data

/-- Python-2 comparison of the 4-tuples `(timestamp, event_type, is_active,
created)` that `sorted` receives in `ValidateEnrollmentForEvents.__init__`. -/
def cmpTuple (a b : InputTuple) : Ordering :=
  (lexCmp a.timestamp b.timestamp).then ((cmpStr a.event_type b.event_type).then
    ((cmpOpt cmpBool a.is_active b.is_active).then (cmpOpt lexCmp a.created b.created)))

/-- The descending order used by `sorted(events, reverse=True)`:
`a` precedes `b` when `a` is not smaller than `b`. -/
def descRel (a b : InputTuple) : Prop := cmpTuple a b ≠ Ordering.lt

instance : DecidableRel descRel := fun a b => by unfold descRel; infer_instance

/-- `sorted(events, reverse=True)`.  Python's sort is stable, and the
comparison is antisymmetric on these tuples, so any sorting algorithm yields
the same (unique) descending list; insertion sort is used here. -/
def sortEventsDesc (l : List InputTuple) : List InputTuple := List.insertionSort descRel l

/-- The per-key processor's configuration (the immutable attributes of class
`ValidateEnrollmentForEvents`; the mutable `creation_timestamp` is threaded
through the scan explicitly). -/
structure VEvents where
  course_id : String
  user_id : Nat
  interval : String
  event_output : Bool
  require_validation : Bool
  generate_before : Bool
  lower_bound_date_string : Str
deriving DecidableEq

/-- The anomalies the source reports through `log.error` during a scan. -/
inductive Diag where
  | creationMismatch (curr_created prior : Option Str)
  | missingValidation
deriving DecidableEq

/-- A record emitted for one synthesized event, in either output encoding. -/
inductive OutputRecord where
  | tuple (datestamp : Option Str) (course_id : String) (user_id : Nat)
      (timestamp : Option Str) (event_type : String) (reason : String)
      (after before : Option Str)
  | document (datestamp : Option Str) (course_id : String) (user_id : Nat)
      (timestamp : Option Str) (event_type : String) (reason : String)
      (after_time before_time : Option Str)
deriving DecidableEq

/-- Modelled from the spec: `eventlog.timestamp_to_datestamp` is repository
code not included under src/; the spec says both emitters key each record by
the calendar date derived from the synthesized timestamp (its date portion),
which for `YYYY-MM-DDT...` is the first ten characters. -/
def timestamp_to_datestamp (t : Str) : Str := t.take 10

/-- Model of `ValidateEnrollmentForEvents.create_tuple`.  A `None` timestamp
would make `timestamp_to_datestamp` raise in Python; here the null is kept in
the record so that theorems can observe it. -/
def create_tuple (ctx : VEvents) (timestamp : Option Str) (event_type : String)
    (reason : String) (after before : Option Str) : OutputRecord :=
  OutputRecord.tuple (timestamp.map timestamp_to_datestamp) ctx.course_id ctx.user_id
    timestamp event_type reason after before

/-- Model of `ValidateEnrollmentForEvents.synthetic_event`: the document
carries the same payload, except that falsy bounds are omitted; the constant
context/provenance fields added by the external `SyntheticEventFactory` are
not modelled. -/
def synthetic_event (ctx : VEvents) (timestamp : Option Str) (event_type : String)
    (reason : String) (after before : Option Str) : OutputRecord :=
  OutputRecord.document (timestamp.map timestamp_to_datestamp) ctx.course_id ctx.user_id
    timestamp event_type reason (if truthyS after then after else none)
    (if truthyS before then before else none)

/-- `self.generate_output`: dispatches on the `event_output` option. -/
def generate_output (ctx : VEvents) (timestamp : Option Str) (event_type : String)
    (reason : String) (after before : Option Str) : OutputRecord :=
  if ctx.event_output then synthetic_event ctx timestamp event_type reason after before
  else create_tuple ctx timestamp event_type reason after before

/-- Python truthiness of an optional boolean. -/
def truthyB : Option Bool → Bool
  | none => false
  | some b => b

/-- `ValidateEnrollmentForEvents._get_state_string`. -/
def _get_state_string (e : EnrollmentEvent) : String :=
  let state_name :=
    if e.event_type = VALIDATED then "validate"
    else if e.event_type = ACTIVATED then "activate"
    else if e.event_type = DEACTIVATED then "deactivate"
    else if e.event_type = SENTINEL then "start"
    else "unknown"
  if e.event_type = VALIDATED then
    state_name ++ (if truthyB e.is_active then "(active)" else "(inactive)")
  else state_name

/-- `ValidateEnrollmentForEvents._get_transition_string`. -/
def _get_transition_string (prev_event curr_event : EnrollmentEvent) : String :=
  _get_state_string prev_event ++ " => " ++ _get_state_string curr_event

/-- Python-2 `x < y` for an optional string against a string
(`None` compares below every string). -/
def pyLtOptStr (a : Option Str) (b : Str) : Bool :=
  match a with
  | none => true
  | some s => strLt s b

/-- The result of one `check_transition` call: the new `creation_timestamp`
attribute, the returned list of missing-event records, and the anomalies
logged during the call. -/
structure StepResult where
  creation_timestamp : Option Str
  missing : List OutputRecord
  diags : List Diag
deriving DecidableEq

/-- Model of `ValidateEnrollmentForEvents.check_transition` (the transition
rule engine).  `prev_event` is chronologically older; a `None` return in
Python is the empty record list here. -/
def check_transition (ctx : VEvents) (creation_timestamp : Option Str)
    (prev_event curr_event : EnrollmentEvent) : StepResult :=
  let prev := prev_event.timestamp
  let curr := curr_event.timestamp
  let timestamp := _get_fake_timestamp prev curr
  let reason := _get_transition_string prev_event curr_event
  if curr_event.event_type = VALIDATED then
    let diags :=
      if truthyS creation_timestamp ∧ curr_event.created ≠ creation_timestamp then
        [Diag.creationMismatch curr_event.created creation_timestamp]
      else []
    let st := curr_event.created
    if prev_event.event_type = VALIDATED then
      if truthyB curr_event.is_active ∧ ¬ truthyB prev_event.is_active then
        ⟨st, [generate_output ctx (some timestamp) ACTIVATED reason prev curr], diags⟩
      else if ¬ truthyB curr_event.is_active ∧ truthyB prev_event.is_active then
        ⟨st, [generate_output ctx (some timestamp) DEACTIVATED reason prev curr], diags⟩
      else ⟨st, [], diags⟩
    else if prev_event.event_type = ACTIVATED then
      if ¬ truthyB curr_event.is_active then
        ⟨st, [generate_output ctx (some timestamp) DEACTIVATED reason prev curr], diags⟩
      else ⟨st, [], diags⟩
    else if prev_event.event_type = DEACTIVATED then
      if truthyB curr_event.is_active then
        ⟨st, [generate_output ctx (some timestamp) ACTIVATED reason prev curr], diags⟩
      else ⟨st, [], diags⟩
    else if prev_event.event_type = SENTINEL then
      if ¬ ctx.generate_before ∧ pyLtOptStr st ctx.lower_bound_date_string then
        ⟨st, [], diags⟩
      else if truthyB curr_event.is_active then
        ⟨st, [generate_output ctx st ACTIVATED reason st curr], diags⟩
      else
        let event1 := generate_output ctx st ACTIVATED reason st curr
        let timestamp2 := _get_fake_timestamp st curr
        let event2 := generate_output ctx (some timestamp2) DEACTIVATED reason st curr
        ⟨st, [event1, event2], diags⟩
    else ⟨st, [], diags⟩
  else if curr_event.event_type = ACTIVATED then
    if prev_event.event_type = VALIDATED then
      if truthyB prev_event.is_active then
        ⟨creation_timestamp, [generate_output ctx (some timestamp) DEACTIVATED reason prev curr], []⟩
      else ⟨creation_timestamp, [], []⟩
    else if prev_event.event_type = ACTIVATED then
      ⟨creation_timestamp, [generate_output ctx (some timestamp) DEACTIVATED reason prev curr], []⟩
    else ⟨creation_timestamp, [], []⟩
  else if curr_event.event_type = DEACTIVATED then
    if prev_event.event_type = VALIDATED then
      if ¬ truthyB prev_event.is_active then
        ⟨creation_timestamp, [generate_output ctx (some timestamp) ACTIVATED reason prev curr], []⟩
      else ⟨creation_timestamp, [], []⟩
    else if prev_event.event_type = ACTIVATED then ⟨creation_timestamp, [], []⟩
    else if prev_event.event_type = DEACTIVATED then
      ⟨creation_timestamp, [generate_output ctx (some timestamp) ACTIVATED reason prev curr], []⟩
    else if prev_event.event_type = SENTINEL then
      if truthyS creation_timestamp ∧
          (ctx.generate_before ∨ strGe (creation_timestamp.getD []) ctx.lower_bound_date_string) then
        ⟨creation_timestamp,
          [generate_output ctx creation_timestamp ACTIVATED reason creation_timestamp curr], []⟩
      else if ctx.generate_before then
        let timestamp2 := _get_fake_timestamp none curr
        ⟨creation_timestamp, [generate_output ctx (some timestamp2) ACTIVATED reason none curr], []⟩
      else ⟨creation_timestamp, [], []⟩
    else ⟨creation_timestamp, [], []⟩
  else ⟨creation_timestamp, [], []⟩

/-- The artificial oldest element marking the beginning of the interval
(`initial_state` in `ValidateEnrollmentForEvents.__init__`). -/
def sentinel_event : EnrollmentEvent := ⟨none, SENTINEL, some false, none⟩

def toEnrollmentEvent (t : InputTuple) : EnrollmentEvent :=
  ⟨some t.timestamp, t.event_type, t.is_active, t.created⟩

/-- `self.sorted_events`: the input tuples sorted newest first, wrapped as
events, with the sentinel appended as the logical oldest element. -/
def sorted_events (events : List InputTuple) : List EnrollmentEvent :=
  (sortEventsDesc events).map toEnrollmentEvent ++ [sentinel_event]

/-- Everything a full scan produces: the accumulated missing-event records
(the return value of `missing_enrolled`), the logged anomalies, and the final
`creation_timestamp` attribute. -/
structure ScanResult where
  missing : List OutputRecord
  diags : List Diag
  creation_timestamp : Option Str
deriving DecidableEq

/-- The pairwise loop of `missing_enrolled`: each element is the `curr` of one
iteration with its successor as `prev`; the final single element (the
sentinel) is not processed. -/
def scanEvents (ctx : VEvents) (creation_timestamp : Option Str)
    (validation_found : Bool) : List EnrollmentEvent → ScanResult
  | [] => ⟨[], [], creation_timestamp⟩
  | [_] => ⟨[], [], creation_timestamp⟩
  | curr :: prev :: rest =>
    let vf := validation_found || (curr.event_type == VALIDATED)
    let step := check_transition ctx creation_timestamp prev curr
    let diags1 :=
      if ctx.require_validation && !vf then step.diags ++ [Diag.missingValidation]
      else step.diags
    let tail := scanEvents ctx step.creation_timestamp vf (prev :: rest)
    ⟨step.missing ++ tail.missing, diags1 ++ tail.diags, tail.creation_timestamp⟩

/-- Model of `ValidateEnrollmentForEvents.missing_enrolled` (together with the
sorting done in `__init__`): the reconciliation of one (course, user) key. -/
def missing_enrolled (ctx : VEvents) (events : List InputTuple) : ScanResult :=
  scanEvents ctx none false (sorted_events events)

/-! Order theory of the sort comparator: the comparison used by
`sorted(events, reverse=True)` is a total, transitive, antisymmetric order, so
the descending sort of a multiset is unique and permutation-invariant. -/

theorem then_eq_lt {o p : Ordering} :
    o.then p = Ordering.lt ↔ o = Ordering.lt ∨ (o = Ordering.eq ∧ p = Ordering.lt) := by
  cases o <;> simp [Ordering.then]

theorem then_eq_eq {o p : Ordering} :
    o.then p = Ordering.eq ↔ o = Ordering.eq ∧ p = Ordering.eq := by
  cases o <;> simp [Ordering.then]

theorem then_swap4 :
    ∀ o1 o2 o3 o4 : Ordering,
      (o1.swap).then ((o2.swap).then ((o3.swap).then o4.swap)) =
        (o1.then (o2.then (o3.then o4))).swap := by
  intro o1 o2 o3 o4
  cases o1 <;> cases o2 <;> cases o3 <;> cases o4 <;> rfl

theorem cmpBool_swap : ∀ a b : Bool, cmpBool b a = (cmpBool a b).swap := by decide

theorem cmpBool_eq_iff : ∀ a b : Bool, cmpBool a b = Ordering.eq ↔ a = b := by decide

theorem cmpBool_lt_trans :
    ∀ a b c : Bool, cmpBool a b = Ordering.lt → cmpBool b c = Ordering.lt →
      cmpBool a c = Ordering.lt := by decide

theorem cmpOpt_swap {f : α → α → Ordering} (hf : ∀ x y, f y x = (f x y).swap) :
    ∀ a b : Option α, cmpOpt f b a = (cmpOpt f a b).swap := by
  intro a b
  cases a <;> cases b
  · rfl
  · rfl
  · rfl
  · exact hf _ _

theorem cmpOpt_eq_iff {f : α → α → Ordering} (hf : ∀ x y, f x y = Ordering.eq ↔ x = y) :
    ∀ a b : Option α, cmpOpt f a b = Ordering.eq ↔ a = b := by
  intro a b
  cases a <;> cases b <;> simp [cmpOpt, hf]

theorem cmpOpt_lt_trans {f : α → α → Ordering}
    (hf : ∀ x y z, f x y = Ordering.lt → f y z = Ordering.lt → f x z = Ordering.lt) :
    ∀ a b c : Option α, cmpOpt f a b = Ordering.lt → cmpOpt f b c = Ordering.lt →
      cmpOpt f a c = Ordering.lt := by
  intro a b c h1 h2
  cases a <;> cases b <;> cases c <;> simp_all [cmpOpt]
  exact hf _ _ _ h1 h2

theorem cmpStr_swap (a b : String) : cmpStr b a = (cmpStr a b).swap := lexCmp_swap _ _

theorem cmpStr_eq_iff (a b : String) : cmpStr a b = Ordering.eq ↔ a = b := by
  unfold cmpStr
  rw [lexCmp_eq_iff]
  constructor
  · intro h
    cases a with
    | mk da =>
      cases b with
      | mk db =>
        simp only [] at h
        rw [h]
  · intro h
    rw [h]

theorem lexCmp_eq_iff_prop {s t : Str} : lexCmp s t = Ordering.eq ↔ s = t := lexCmp_eq_iff

theorem cmpTuple_swap (a b : InputTuple) : cmpTuple b a = (cmpTuple a b).swap := by
  unfold cmpTuple
  rw [lexCmp_swap a.timestamp b.timestamp, cmpStr_swap a.event_type b.event_type,
    cmpOpt_swap cmpBool_swap a.is_active b.is_active,
    cmpOpt_swap (fun x y => lexCmp_swap x y) a.created b.created]
  exact then_swap4 _ _ _ _

theorem cmpTuple_eq_iff (a b : InputTuple) : cmpTuple a b = Ordering.eq ↔ a = b := by
  unfold cmpTuple
  rw [then_eq_eq, then_eq_eq, then_eq_eq, lexCmp_eq_iff, cmpStr_eq_iff,
    cmpOpt_eq_iff cmpBool_eq_iff, cmpOpt_eq_iff (fun x y => lexCmp_eq_iff_prop)]
  constructor
  · intro h
    obtain ⟨h1, h2, h3, h4⟩ := h
    cases a
    cases b
    simp_all
  · intro h
    subst h
    simp

theorem cmpTuple_lt_trans {a b c : InputTuple} (h1 : cmpTuple a b = Ordering.lt)
    (h2 : cmpTuple b c = Ordering.lt) : cmpTuple a c = Ordering.lt := by
  unfold cmpTuple at *
  rw [then_eq_lt] at h1 h2 ⊢
  rcases h1 with h1 | ⟨h1e, h1⟩
  · rcases h2 with h2 | ⟨h2e, h2⟩
    · exact Or.inl (lexCmp_lt_trans h1 h2)
    · rw [lexCmp_eq_iff] at h2e
      rw [← h2e]
      exact Or.inl h1
  · rw [lexCmp_eq_iff] at h1e
    rcases h2 with h2 | ⟨h2e, h2⟩
    · rw [h1e]
      exact Or.inl h2
    · rw [lexCmp_eq_iff] at h2e
      refine Or.inr ⟨by rw [h1e, h2e, lexCmp_self], ?_⟩
      rw [then_eq_lt] at h1 h2 ⊢
      rcases h1 with h1 | ⟨h1e2, h1⟩
      · rcases h2 with h2 | ⟨h2e2, h2⟩
        · exact Or.inl (by
            unfold cmpStr at *
            exact lexCmp_lt_trans h1 h2)
        · rw [cmpStr_eq_iff] at h2e2
          rw [← h2e2]
          exact Or.inl h1
      · rw [cmpStr_eq_iff] at h1e2
        rcases h2 with h2 | ⟨h2e2, h2⟩
        · rw [h1e2]
          exact Or.inl h2
        · rw [cmpStr_eq_iff] at h2e2
          refine Or.inr ⟨by rw [h1e2, h2e2]; unfold cmpStr; rw [lexCmp_self], ?_⟩
          rw [then_eq_lt] at h1 h2 ⊢
          rcases h1 with h1 | ⟨h1e3, h1⟩
          · rcases h2 with h2 | ⟨h2e3, h2⟩
            · exact Or.inl (cmpOpt_lt_trans cmpBool_lt_trans _ _ _ h1 h2)
            · rw [cmpOpt_eq_iff cmpBool_eq_iff] at h2e3
              rw [← h2e3]
              exact Or.inl h1
          · rw [cmpOpt_eq_iff cmpBool_eq_iff] at h1e3
            rcases h2 with h2 | ⟨h2e3, h2⟩
            · rw [h1e3]
              exact Or.inl h2
            · rw [cmpOpt_eq_iff cmpBool_eq_iff] at h2e3
              refine Or.inr ⟨?_, ?_⟩
              · rw [h1e3, h2e3, (cmpOpt_eq_iff cmpBool_eq_iff _ _).2 rfl]
              · exact @cmpOpt_lt_trans _ lexCmp (fun _ _ _ hx hy => lexCmp_lt_trans hx hy) _ _ _ h1 h2

instance : IsTotal InputTuple descRel := by
  constructor
  intro a b
  unfold descRel
  by_cases h : cmpTuple a b = Ordering.lt
  · right
    rw [cmpTuple_swap, h]
    simp [Ordering.swap]
  · left
    exact h

instance : IsTrans InputTuple descRel := by
  constructor
  intro a b c hab hbc
  unfold descRel at *
  intro hac
  rcases hord : cmpTuple a b with h | h | h
  · exact hab hord
  · rw [cmpTuple_eq_iff] at hord
    subst hord
    exact hbc hac
  · have hba : cmpTuple b a = Ordering.lt := by
      rw [cmpTuple_swap, hord]
      rfl
    rcases hord2 : cmpTuple b c with h2 | h2 | h2
    · exact hbc hord2
    · rw [cmpTuple_eq_iff] at hord2
      subst hord2
      have := cmpTuple_lt_trans hac hba
      rw [(cmpTuple_eq_iff a a).2 rfl] at this
      cases this
    · have hcb : cmpTuple c b = Ordering.lt := by
        rw [cmpTuple_swap, hord2]
        rfl
      have h1 := cmpTuple_lt_trans hac hcb
      have h2 := cmpTuple_lt_trans h1 hba
      rw [(cmpTuple_eq_iff a a).2 rfl] at h2
      cases h2

instance : IsAntisymm InputTuple descRel := by
  constructor
  intro a b hab hba
  unfold descRel at *
  rcases hord : cmpTuple a b with h | h | h
  · exact absurd hord hab
  · exact (cmpTuple_eq_iff a b).1 hord
  · have : cmpTuple b a = Ordering.lt := by
      rw [cmpTuple_swap, hord]
      rfl
    exact absurd this hba

theorem sortEventsDesc_perm (l : List InputTuple) :
    List.Perm (sortEventsDesc l) l := List.perm_insertionSort _ l

theorem sortEventsDesc_sorted (l : List InputTuple) :
    List.Sorted descRel (sortEventsDesc l) := List.sorted_insertionSort _ l

/-- Two permutations of one multiset have the same descending sort: the key
fact behind order-invariance of the reconciliation. -/
theorem sortEventsDesc_perm_eq {l1 l2 : List InputTuple} (h : List.Perm l1 l2) :
    sortEventsDesc l1 = sortEventsDesc l2 :=
  List.eq_of_perm_of_sorted
    ((sortEventsDesc_perm l1).trans (h.trans (sortEventsDesc_perm l2).symm))
    (sortEventsDesc_sorted l1) (sortEventsDesc_sorted l2)

/-! Lemmas about the scan: how the `creation_timestamp` state evolves, and
which timestamps reach the output emitter. -/

theorem check_transition_state_validated {ctx : VEvents} {st : Option Str}
    {prev curr : EnrollmentEvent} (hc : curr.event_type = VALIDATED) :
    (check_transition ctx st prev curr).creation_timestamp = curr.created := by
  unfold check_transition
  rw [if_pos hc]
  repeat' split
  all_goals try simp only []
  repeat' split
  all_goals rfl

theorem check_transition_state_other {ctx : VEvents} {st : Option Str}
    {prev curr : EnrollmentEvent} (hc : curr.event_type ≠ VALIDATED) :
    (check_transition ctx st prev curr).creation_timestamp = st := by
  unfold check_transition
  rw [if_neg hc]
  repeat' split
  all_goals try simp only []
  repeat' split
  all_goals rfl

theorem check_transition_missing_state_blind {ctx : VEvents} (st1 st2 : Option Str)
    {prev curr : EnrollmentEvent} (hc : curr.event_type = VALIDATED) :
    (check_transition ctx st1 prev curr).missing =
      (check_transition ctx st2 prev curr).missing := by
  unfold check_transition
  rw [if_pos hc, if_pos hc]
  repeat' split
  all_goals try simp only []
  repeat' split
  all_goals rfl

/-- The state evolution of a forward walk: each `Validated` element overwrites
the stored creation timestamp. -/
def stepState : List EnrollmentEvent → Option Str → Option Str
  | [], st => st
  | x :: xs, st => stepState xs (if x.event_type = VALIDATED then x.created else st)

theorem scanEvents_cons_state (ctx : VEvents) (st : Option Str) (vf : Bool)
    (curr prev : EnrollmentEvent) (rest : List EnrollmentEvent) :
    (scanEvents ctx st vf (curr :: prev :: rest)).creation_timestamp =
      (scanEvents ctx (check_transition ctx st prev curr).creation_timestamp
        (vf || (curr.event_type == VALIDATED)) (prev :: rest)).creation_timestamp := rfl

theorem scanEvents_state (ctx : VEvents) :
    ∀ (l : List EnrollmentEvent) (st : Option Str) (vf : Bool),
      (scanEvents ctx st vf (l ++ [sentinel_event])).creation_timestamp = stepState l st := by
  intro l
  induction l with
  | nil => intro st vf; rfl
  | cons x l ih =>
    intro st vf
    cases l with
    | nil =>
      have h1 : (x :: ([] : List EnrollmentEvent)) ++ [sentinel_event]
          = x :: sentinel_event :: [] := rfl
      rw [h1, scanEvents_cons_state]
      by_cases hx : x.event_type = VALIDATED
      · simp [stepState, hx, scanEvents, check_transition_state_validated hx]
      · simp [stepState, hx, scanEvents, check_transition_state_other hx]
    | cons y l2 =>
      have h1 : (x :: y :: l2) ++ [sentinel_event]
          = x :: ((y :: l2) ++ [sentinel_event]) := rfl
      have h2 : (y :: l2) ++ [sentinel_event] = y :: (l2 ++ [sentinel_event]) := rfl
      rw [h1, h2, scanEvents_cons_state, ← h2, ih]
      by_cases hx : x.event_type = VALIDATED
      · simp [stepState, hx, check_transition_state_validated hx]
      · simp [stepState, hx, check_transition_state_other hx]

theorem stepState_map (l : List InputTuple) :
    ∀ st, stepState (l.map toEnrollmentEvent) st =
      ((l.filter fun t => t.event_type == VALIDATED).getLast?).elim st (fun e => e.created) := by
  induction l with
  | nil => intro st; rfl
  | cons x l ih =>
    intro st
    rw [List.map_cons, List.filter_cons]
    by_cases hx : x.event_type = VALIDATED
    · rw [if_pos (by simp [hx])]
      cases hfl : l.filter (fun t => t.event_type == VALIDATED) with
      | nil => simp [stepState, toEnrollmentEvent, hx, ih, hfl]
      | cons z zs =>
        have hne : z :: zs ≠ [] := List.cons_ne_nil z zs
        simp [stepState, toEnrollmentEvent, hx, ih, hfl,
          List.getLast?_eq_getLast_of_ne_nil hne]
    · rw [if_neg (by simp [hx])]
      simp [stepState, toEnrollmentEvent, hx, ih]

theorem mem_of_getLast?_eq {α : Type _} : ∀ {l : List α} {v : α}, l.getLast? = some v → v ∈ l := by
  intro l
  induction l with
  | nil => intro v h; cases h
  | cons a l ih =>
    intro v h
    cases l with
    | nil =>
      simp at h
      subst h
      exact List.mem_singleton_self a
    | cons b l2 =>
      rw [List.getLast?_cons_cons] at h
      exact List.mem_cons_of_mem a (ih h)

theorem sorted_getLast_min {l : List InputTuple} (hs : List.Sorted descRel l) :
    ∀ {v : InputTuple}, l.getLast? = some v → ∀ u ∈ l, descRel u v ∨ u = v := by
  induction l with
  | nil => intro v h; cases h
  | cons a l ih =>
    intro v h u hu
    cases l with
    | nil =>
      simp at h hu
      subst h
      subst hu
      right
      rfl
    | cons b l2 =>
      rw [List.getLast?_cons_cons] at h
      rcases List.mem_cons.1 hu with rfl | hu2
      · left
        have hv : v ∈ b :: l2 := mem_of_getLast?_eq h
        exact (List.sorted_cons.1 hs).1 v hv
      · exact ih (List.sorted_cons.1 hs).2 h u hu2

theorem descRel_timestamp {u v : InputTuple} (h : descRel u v) :
    strLt u.timestamp v.timestamp = false := by
  unfold descRel cmpTuple at h
  rcases hl : lexCmp u.timestamp v.timestamp with _ | _ | _
  · exfalso
    rw [hl] at h
    exact h rfl
  · unfold strLt
    rw [hl]
    rfl
  · unfold strLt
    rw [hl]
    rfl

/-- The synthesized timestamp carried by an output record. -/
def recTimestamp : OutputRecord → Option Str
  | OutputRecord.tuple _ _ _ ts _ _ _ _ => ts
  | OutputRecord.document _ _ _ ts _ _ _ _ => ts

theorem recTimestamp_generate (ctx : VEvents) (ts : Option Str) (e r : String)
    (a b : Option Str) : recTimestamp (generate_output ctx ts e r a b) = ts := by
  unfold generate_output create_tuple synthetic_event
  split <;> rfl

theorem check_transition_timestamps {ctx : VEvents} {st : Option Str}
    {prev curr : EnrollmentEvent}
    (h : ctx.generate_before = false ∨ (curr.event_type = VALIDATED → curr.created ≠ none)) :
    ∀ r ∈ (check_transition ctx st prev curr).missing, (recTimestamp r).isSome := by
  intro r hr
  unfold check_transition at hr
  by_cases hc : curr.event_type = VALIDATED
  · rw [if_pos hc] at hr
    have hcr : curr.created ≠ none ∨ ctx.generate_before = false := by
      rcases h with h | h
      · exact Or.inr h
      · exact Or.inl (h hc)
    by_cases hp1 : prev.event_type = VALIDATED
    · rw [if_pos hp1] at hr
      split at hr
      · simp at hr
        subst hr
        rw [recTimestamp_generate]
        rfl
      · split at hr
        · simp at hr
          subst hr
          rw [recTimestamp_generate]
          rfl
        · simp at hr
    · rw [if_neg hp1] at hr
      by_cases hp2 : prev.event_type = ACTIVATED
      · rw [if_pos hp2] at hr
        split at hr
        · simp at hr
          subst hr
          rw [recTimestamp_generate]
          rfl
        · simp at hr
      · rw [if_neg hp2] at hr
        by_cases hp3 : prev.event_type = DEACTIVATED
        · rw [if_pos hp3] at hr
          split at hr
          · simp at hr
            subst hr
            rw [recTimestamp_generate]
            rfl
          · simp at hr
        · rw [if_neg hp3] at hr
          by_cases hp4 : prev.event_type = SENTINEL
          · rw [if_pos hp4] at hr
            by_cases hsup : ¬ ctx.generate_before = true ∧
                pyLtOptStr curr.created ctx.lower_bound_date_string = true
            · rw [if_pos hsup] at hr
              simp at hr
            · rw [if_neg hsup] at hr
              have hcreated : curr.created ≠ none := by
                rcases hcr with hcr | hcr
                · exact hcr
                · intro hnone
                  exact hsup ⟨by simp [hcr], by rw [hnone]; rfl⟩
              split at hr
              · simp at hr
                subst hr
                rw [recTimestamp_generate]
                simpa [Option.isSome_iff_ne_none] using hcreated
              · simp at hr
                rcases hr with hr | hr
                · subst hr
                  rw [recTimestamp_generate]
                  simpa [Option.isSome_iff_ne_none] using hcreated
                · subst hr
                  rw [recTimestamp_generate]
                  rfl
          · rw [if_neg hp4] at hr
            simp at hr
  · rw [if_neg hc] at hr
    by_cases hc2 : curr.event_type = ACTIVATED
    · rw [if_pos hc2] at hr
      by_cases hp1 : prev.event_type = VALIDATED
      · rw [if_pos hp1] at hr
        split at hr
        · simp at hr
          subst hr
          rw [recTimestamp_generate]
          rfl
        · simp at hr
      · rw [if_neg hp1] at hr
        by_cases hp2 : prev.event_type = ACTIVATED
        · rw [if_pos hp2] at hr
          simp at hr
          subst hr
          rw [recTimestamp_generate]
          rfl
        · rw [if_neg hp2] at hr
          simp at hr
    · rw [if_neg hc2] at hr
      by_cases hc3 : curr.event_type = DEACTIVATED
      · rw [if_pos hc3] at hr
        by_cases hp1 : prev.event_type = VALIDATED
        · rw [if_pos hp1] at hr
          split at hr
          · simp at hr
            subst hr
            rw [recTimestamp_generate]
            rfl
          · simp at hr
        · rw [if_neg hp1] at hr
          by_cases hp2 : prev.event_type = ACTIVATED
          · rw [if_pos hp2] at hr
            simp at hr
          · rw [if_neg hp2] at hr
            by_cases hp3 : prev.event_type = DEACTIVATED
            · rw [if_pos hp3] at hr
              simp at hr
              subst hr
              rw [recTimestamp_generate]
              rfl
            · rw [if_neg hp3] at hr
              by_cases hp4 : prev.event_type = SENTINEL
              · rw [if_pos hp4] at hr
                by_cases hg1 : truthyS st = true ∧ (ctx.generate_before = true ∨
                    strGe (st.getD []) ctx.lower_bound_date_string = true)
                · rw [if_pos hg1] at hr
                  simp at hr
                  subst hr
                  rw [recTimestamp_generate]
                  cases hst : st with
                  | none => rw [hst] at hg1; simp [truthyS] at hg1
                  | some s => simp
                · rw [if_neg hg1] at hr
                  split at hr
                  · simp at hr
                    subst hr
                    rw [recTimestamp_generate]
                    rfl
                  · simp at hr
              · rw [if_neg hp4] at hr
                simp at hr
      · rw [if_neg hc3] at hr
        simp at hr

theorem scanEvents_timestamps (ctx : VEvents) :
    ∀ (l : List EnrollmentEvent) (st : Option Str) (vf : Bool),
      (ctx.generate_before = false ∨
        ∀ e ∈ l, e.event_type = VALIDATED → e.created ≠ none) →
      ∀ r ∈ (scanEvents ctx st vf l).missing, (recTimestamp r).isSome := by
  intro l
  induction l with
  | nil =>
    intro st vf h r hr
    simp [scanEvents] at hr
  | cons x l ih =>
    intro st vf h r hr
    cases l with
    | nil => simp [scanEvents] at hr
    | cons y l2 =>
      have hx : ctx.generate_before = false ∨ (x.event_type = VALIDATED → x.created ≠ none) := by
        rcases h with h | h
        · exact Or.inl h
        · exact Or.inr (h x (List.mem_cons_self x _))
      have htail : ctx.generate_before = false ∨
          ∀ e ∈ y :: l2, e.event_type = VALIDATED → e.created ≠ none := by
        rcases h with h | h
        · exact Or.inl h
        · exact Or.inr (fun e he => h e (List.mem_cons_of_mem x he))
      simp only [scanEvents, List.mem_append] at hr
      rcases hr with hr | hr
      · exact check_transition_timestamps hx r hr
      · exact ih _ _ htail r hr

/-- String constants used in the scan are pairwise distinct. -/
theorem sentinel_ne_validated : SENTINEL ≠ VALIDATED := by decide

theorem missing_enrolled_timestamps (ctx : VEvents) (events : List InputTuple)
    (h : ctx.generate_before = false ∨
      ∀ t ∈ events, t.event_type = VALIDATED → t.created ≠ none) :
    ∀ r ∈ (missing_enrolled ctx events).missing, (recTimestamp r).isSome := by
  apply scanEvents_timestamps
  rcases h with h | h
  · exact Or.inl h
  · right
    intro e he hv
    unfold sorted_events at he
    rcases List.mem_append.1 he with he | he
    · rcases List.mem_map.1 he with ⟨t, ht, rfl⟩
      have hmem : t ∈ events := ((sortEventsDesc_perm events).mem_iff).1 ht
      exact h t hmem hv
    · simp at he
      subst he
      exact absurd hv sentinel_ne_validated

theorem check_transition_rv (course : String) (user : Nat) (intv : String)
    (eo rv1 rv2 gb : Bool) (lb : Str) (st : Option Str) (prev curr : EnrollmentEvent) :
    check_transition ⟨course, user, intv, eo, rv1, gb, lb⟩ st prev curr =
      check_transition ⟨course, user, intv, eo, rv2, gb, lb⟩ st prev curr := rfl

theorem scanEvents_rv (course : String) (user : Nat) (intv : String)
    (eo rv1 rv2 gb : Bool) (lb : Str) :
    ∀ (l : List EnrollmentEvent) (st : Option Str) (vf : Bool),
      (scanEvents ⟨course, user, intv, eo, rv1, gb, lb⟩ st vf l).missing =
        (scanEvents ⟨course, user, intv, eo, rv2, gb, lb⟩ st vf l).missing := by
  intro l
  induction l with
  | nil => intro st vf; rfl
  | cons x l ih =>
    intro st vf
    cases l with
    | nil => rfl
    | cons y l2 =>
      have hstep : check_transition ⟨course, user, intv, eo, rv1, gb, lb⟩ st y x
          = check_transition ⟨course, user, intv, eo, rv2, gb, lb⟩ st y x := rfl
      simp only [scanEvents, hstep]
      rw [ih]

/-- A formatted timestamp is truthy (non-empty). -/
theorem truthyS_some_fmtL (dt : DateTime) : truthyS (some (fmtL dt)) = true := rfl

theorem get_fake_some_fmtL (dt : DateTime) (before : Option Str) :
    _get_fake_timestamp (some (fmtL dt)) before = _add_microseconds (fmtL dt) 1 := by
  unfold _get_fake_timestamp
  rw [if_pos (truthyS_some_fmtL dt)]
  rfl

theorem get_fake_none (b : Str) :
    _get_fake_timestamp none (some b) = _add_microseconds b (-1) := rfl

theorem strLt_irrefl (s : Str) : strLt s s = false := by
  unfold strLt
  rw [lexCmp_self]
  rfl

theorem partitionDot_no_dot {p : Str} (hp : ∀ c ∈ p, c ≠ '.') :
    partitionDot p = (p, none) := by
  induction p with
  | nil => rfl
  | cons c cs ih =>
    have hc : c ≠ '.' := hp c (List.mem_cons_self c cs)
    have hcs : ∀ x ∈ cs, x ≠ '.' := fun x hx => hp x (List.mem_cons_of_mem c hx)
    simp [partitionDot, hc, ih hcs]

/-- The shape required of every `_add_microseconds` result: an ISO timestamp
body followed by a six-digit fractional part. -/
def sixDigitFraction (s : Str) : Prop :=
  ∃ b f, s = b ++ '.' :: f ∧ (∀ c ∈ b, c ≠ '.') ∧ f.length = 6 ∧ ∀ c ∈ f, c.isDigit = true

theorem sixDigitFraction_fmtL (dt : DateTime) : sixDigitFraction (fmtL dt) :=
  ⟨fmtHead dt, zpad 6 dt.microsecond, rfl, fmtHead_no_dot dt, zpad_length 6 dt.microsecond,
    fun c hc => zpad_all_digits c hc⟩

theorem activated_ne_validated : ACTIVATED ≠ VALIDATED := by decide

theorem deactivated_ne_validated : DEACTIVATED ≠ VALIDATED := by decide

theorem deactivated_ne_activated : DEACTIVATED ≠ ACTIVATED := by decide

theorem sentinel_ne_activated : SENTINEL ≠ ACTIVATED := by decide

theorem sentinel_ne_deactivated : SENTINEL ≠ DEACTIVATED := by decide

/-! The claims. -/

/-- Claim C1: for every chronologically adjacent pair in which both the newer
(curr) and older (prev) events are Validated, `check_transition` emits exactly
one Activated event when curr is active and prev is not, exactly one
Deactivated event in the opposite case, and no event when the two flags agree;
in the emitting cases the synthesized timestamp is
`pick_gap_timestamp(prev.timestamp, curr.timestamp)` — one microsecond after
`prev.timestamp` — and the bounds attached to the event are
`(prev.timestamp, curr.timestamp)`. -/
theorem claim_C1 (ctx : VEvents) (st : Option Str)
    (prev_event curr_event : EnrollmentEvent) (dt1 : DateTime) (t2 : Str) (a b : Bool)
    (hP : prev_event.event_type = VALIDATED) (hC : curr_event.event_type = VALIDATED)
    (hpt : prev_event.timestamp = some (fmtL dt1)) (hct : curr_event.timestamp = some t2)
    (hpa : prev_event.is_active = some a) (hca : curr_event.is_active = some b)
    (hv : validDT dt1) :
    (b = true → a = false →
      (check_transition ctx st prev_event curr_event).missing =
        [generate_output ctx
          (some (_get_fake_timestamp prev_event.timestamp curr_event.timestamp))
          ACTIVATED (_get_transition_string prev_event curr_event)
          prev_event.timestamp curr_event.timestamp]) ∧
    (b = false → a = true →
      (check_transition ctx st prev_event curr_event).missing =
        [generate_output ctx
          (some (_get_fake_timestamp prev_event.timestamp curr_event.timestamp))
          DEACTIVATED (_get_transition_string prev_event curr_event)
          prev_event.timestamp curr_event.timestamp]) ∧
    (a = b → (check_transition ctx st prev_event curr_event).missing = []) ∧
    _get_fake_timestamp prev_event.timestamp curr_event.timestamp = fmtL (pyAddMicro1 dt1) ∧
    toMicros (pyAddMicro1 dt1) = toMicros dt1 + 1 := by
  have hgap : _get_fake_timestamp prev_event.timestamp curr_event.timestamp
      = fmtL (pyAddMicro1 dt1) := by
    rw [hpt, get_fake_some_fmtL, add_one_micro_fmtL hv]
  refine ⟨?_, ?_, ?_, hgap, toMicros_pyAddMicro1 hv.1⟩
  · intro hb ha
    subst hb
    subst ha
    have c1 : truthyB curr_event.is_active = true := by rw [hca]; rfl
    have c2 : ¬ truthyB prev_event.is_active = true := by rw [hpa]; simp [truthyB]
    unfold check_transition
    rw [if_pos hC, if_pos hP, if_pos ⟨c1, c2⟩]
  · intro hb ha
    subst hb
    subst ha
    have c1 : ¬ truthyB curr_event.is_active = true := by rw [hca]; simp [truthyB]
    have c2 : truthyB prev_event.is_active = true := by rw [hpa]; rfl
    unfold check_transition
    rw [if_pos hC, if_pos hP, if_neg (fun hcon => c1 hcon.1), if_pos ⟨c1, c2⟩]
  · intro hab
    rw [hab] at hpa
    unfold check_transition
    rw [if_pos hC, if_pos hP]
    have c1 : ¬ (truthyB curr_event.is_active = true ∧ ¬ truthyB prev_event.is_active = true) := by
      rw [hca, hpa]
      cases b <;> simp [truthyB]
    have c2 : ¬ (¬ truthyB curr_event.is_active = true ∧ truthyB prev_event.is_active = true) := by
      rw [hca, hpa]
      cases b <;> simp [truthyB]
    rw [if_neg c1, if_neg c2]

/-- Claim C2: for a Validated event adjacent to the sentinel with `is_active`
false, when the pair is not suppressed by the out-of-window rule
(`generate_before` set, or the creation timestamp not below
`lower_bound_date_string`), `check_transition` emits exactly two events in
order — an Activated whose timestamp equals the creation timestamp, then a
Deactivated at `pick_gap_timestamp(creation_timestamp, curr.timestamp)`, the
creation timestamp plus one microsecond — both carrying the bounds
`(creation_timestamp, curr.timestamp)`. -/
theorem claim_C2 (ctx : VEvents) (st : Option Str)
    (prev_event curr_event : EnrollmentEvent) (dtc : DateTime)
    (hC : curr_event.event_type = VALIDATED) (hP : prev_event.event_type = SENTINEL)
    (hact : curr_event.is_active = some false)
    (hcr : curr_event.created = some (fmtL dtc)) (hv : validDT dtc)
    (hns : ctx.generate_before = true ∨
      strLt (fmtL dtc) ctx.lower_bound_date_string = false) :
    (check_transition ctx st prev_event curr_event).missing =
      [generate_output ctx (some (fmtL dtc)) ACTIVATED
        (_get_transition_string prev_event curr_event)
        (some (fmtL dtc)) curr_event.timestamp,
       generate_output ctx (some (fmtL (pyAddMicro1 dtc))) DEACTIVATED
        (_get_transition_string prev_event curr_event)
        (some (fmtL dtc)) curr_event.timestamp] ∧
    toMicros (pyAddMicro1 dtc) = toMicros dtc + 1 := by
  refine ⟨?_, toMicros_pyAddMicro1 hv.1⟩
  have hnv : prev_event.event_type ≠ VALIDATED := by rw [hP]; exact sentinel_ne_validated
  have hna : prev_event.event_type ≠ ACTIVATED := by rw [hP]; exact sentinel_ne_activated
  have hnd : prev_event.event_type ≠ DEACTIVATED := by rw [hP]; exact sentinel_ne_deactivated
  have hsupp : ¬ (¬ ctx.generate_before = true ∧
      pyLtOptStr curr_event.created ctx.lower_bound_date_string = true) := by
    rw [hcr]
    rcases hns with h | h
    · intro hcon
      exact hcon.1 h
    · intro hcon
      have : strLt (fmtL dtc) ctx.lower_bound_date_string = true := hcon.2
      rw [h] at this
      cases this
  have hinact : ¬ truthyB curr_event.is_active = true := by rw [hact]; simp [truthyB]
  unfold check_transition
  rw [if_pos hC, if_neg hnv, if_neg hna, if_neg hnd, if_pos hP, if_neg hsupp, if_neg hinact]
  rw [hcr, get_fake_some_fmtL, add_one_micro_fmtL hv]

/-- Claim C3: for a Validated event adjacent to the sentinel, if
`generate_before` is false and the creation timestamp taken from that
validation's `created` field is lexicographically less than
`lower_bound_date_string`, `check_transition` emits no event for that pair,
regardless of the validation's `is_active` flag. -/
theorem claim_C3 (ctx : VEvents) (st : Option Str)
    (prev_event curr_event : EnrollmentEvent) (c : Str)
    (hC : curr_event.event_type = VALIDATED) (hP : prev_event.event_type = SENTINEL)
    (hcr : curr_event.created = some c)
    (hlt : strLt c ctx.lower_bound_date_string = true)
    (hgb : ctx.generate_before = false) :
    (check_transition ctx st prev_event curr_event).missing = [] := by
  have hnv : prev_event.event_type ≠ VALIDATED := by rw [hP]; exact sentinel_ne_validated
  have hna : prev_event.event_type ≠ ACTIVATED := by rw [hP]; exact sentinel_ne_activated
  have hnd : prev_event.event_type ≠ DEACTIVATED := by rw [hP]; exact sentinel_ne_deactivated
  have hsupp : ¬ ctx.generate_before = true ∧
      pyLtOptStr curr_event.created ctx.lower_bound_date_string = true := by
    constructor
    · rw [hgb]
      simp
    · rw [hcr]
      exact hlt
  unfold check_transition
  rw [if_pos hC, if_neg hnv, if_neg hna, if_neg hnd, if_pos hP, if_pos hsupp]

/-- Claim C4: for every adjacent pair of two Activated events,
`check_transition` emits exactly one Deactivated event with timestamp strictly
between the two (the older timestamp plus one microsecond) and bounds
`(prev.timestamp, curr.timestamp)`; symmetrically, a pair of two Deactivated
events yields exactly one Activated event at the same position with the same
bounds. -/
theorem claim_C4 (ctx : VEvents) (st : Option Str)
    (prev_event curr_event : EnrollmentEvent) (dt1 dt2 : DateTime)
    (hpt : prev_event.timestamp = some (fmtL dt1))
    (hct : curr_event.timestamp = some (fmtL dt2))
    (hv1 : validDT dt1) (hv2 : validDT dt2)
    (hgap : toMicros dt1 + 2 ≤ toMicros dt2) :
    (prev_event.event_type = ACTIVATED → curr_event.event_type = ACTIVATED →
      (check_transition ctx st prev_event curr_event).missing =
        [generate_output ctx (some (fmtL (pyAddMicro1 dt1))) DEACTIVATED
          (_get_transition_string prev_event curr_event)
          prev_event.timestamp curr_event.timestamp]) ∧
    (prev_event.event_type = DEACTIVATED → curr_event.event_type = DEACTIVATED →
      (check_transition ctx st prev_event curr_event).missing =
        [generate_output ctx (some (fmtL (pyAddMicro1 dt1))) ACTIVATED
          (_get_transition_string prev_event curr_event)
          prev_event.timestamp curr_event.timestamp]) ∧
    toMicros (pyAddMicro1 dt1) = toMicros dt1 + 1 ∧
    strLt (fmtL dt1) (fmtL (pyAddMicro1 dt1)) = true ∧
    strLt (fmtL (pyAddMicro1 dt1)) (fmtL dt2) = true := by
  have htm := @toMicros_pyAddMicro1 dt1 hv1.1
  have hvA : validDT (pyAddMicro1 dt1) := by
    refine validDT_pyAddMicro1 hv1 ?_
    have := toMicros_lt_max hv2
    omega
  have hgapEq : _get_fake_timestamp prev_event.timestamp curr_event.timestamp
      = fmtL (pyAddMicro1 dt1) := by
    rw [hpt, get_fake_some_fmtL, add_one_micro_fmtL hv1]
  refine ⟨?_, ?_, htm, ?_, ?_⟩
  · intro hPA hCA
    have hnv : curr_event.event_type ≠ VALIDATED := by
      rw [hCA]; exact activated_ne_validated
    have hpnv : prev_event.event_type ≠ VALIDATED := by
      rw [hPA]; exact activated_ne_validated
    unfold check_transition
    rw [if_neg hnv, if_pos hCA, if_neg hpnv, if_pos hPA]
    rw [hgapEq]
  · intro hPD hCD
    have hnv : curr_event.event_type ≠ VALIDATED := by
      rw [hCD]; exact deactivated_ne_validated
    have hna : curr_event.event_type ≠ ACTIVATED := by
      rw [hCD]; exact deactivated_ne_activated
    have hpnv : prev_event.event_type ≠ VALIDATED := by
      rw [hPD]; exact deactivated_ne_validated
    have hpna : prev_event.event_type ≠ ACTIVATED := by
      rw [hPD]; exact deactivated_ne_activated
    unfold check_transition
    rw [if_neg hnv, if_neg hna, if_pos hCD, if_neg hpnv, if_neg hpna, if_pos hPD]
    rw [hgapEq]
  · refine strLt_fmtL hv1 hvA ?_
    omega
  · refine strLt_fmtL hvA hv2 ?_
    omega

/-- Claim C5: invariant of the backward scan — immediately after processing
any pair whose newer event is Validated, the stored creation timestamp equals
that event's `created` value (every Validated event overwrites it), and a
disagreement with the previously stored value is non-fatal: the records
emitted do not depend on the previously stored value.  After the full scan the
stored value is the `created` of the last Validated element in descending
order, which is chronologically earliest: no validated input event has a
strictly smaller timestamp. -/
theorem claim_C5 :
    (∀ (ctx : VEvents) (st st2 : Option Str) (prev curr : EnrollmentEvent),
      curr.event_type = VALIDATED →
        (check_transition ctx st prev curr).creation_timestamp = curr.created ∧
        (check_transition ctx st prev curr).missing =
          (check_transition ctx st2 prev curr).missing) ∧
    (∀ (ctx : VEvents) (events : List InputTuple),
      (missing_enrolled ctx events).creation_timestamp =
        (((sortEventsDesc events).filter fun t => t.event_type == VALIDATED).getLast?).elim
          none (fun e => e.created)) ∧
    (∀ (events : List InputTuple) (v : InputTuple),
      ((sortEventsDesc events).filter fun t => t.event_type == VALIDATED).getLast? = some v →
        ∀ u ∈ events, u.event_type = VALIDATED →
          strLt u.timestamp v.timestamp = false) := by
  refine ⟨?_, ?_, ?_⟩
  · intro ctx st st2 prev curr hc
    exact ⟨check_transition_state_validated hc,
      check_transition_missing_state_blind st st2 hc⟩
  · intro ctx events
    unfold missing_enrolled sorted_events
    rw [scanEvents_state, stepState_map]
  · intro events v hlast u hu huv
    have humem : u ∈ sortEventsDesc events := ((sortEventsDesc_perm events).mem_iff).2 hu
    have hufil : u ∈ (sortEventsDesc events).filter fun t => t.event_type == VALIDATED := by
      rw [List.mem_filter]
      exact ⟨humem, by simp [huv]⟩
    have hsorted : List.Sorted descRel
        ((sortEventsDesc events).filter fun t => t.event_type == VALIDATED) :=
      List.Sorted.filter _ (sortEventsDesc_sorted events)
    rcases sorted_getLast_min hsorted hlast u hufil with h | h
    · exact descRel_timestamp h
    · rw [h]
      exact strLt_irrefl _

/-- Claim C6: `_add_microseconds` always returns a timestamp with a six-digit
fractional part — an input lacking a fractional part is padded to six digits
before arithmetic, and when the adjusted microsecond count leaves
`[0, 1000000)` the operation carries into the seconds and higher fields via
calendar arithmetic.  Concretely,
`pick_gap_timestamp("2013-04-01T00:00:01.123456", None)` is
`"2013-04-01T00:00:01.123457"`, and adding one microsecond to a timestamp
whose microsecond field is `999999` increments the seconds field and resets
the fraction. -/
theorem claim_C6 :
    (∀ s : Str, (∀ c ∈ s, c ≠ '.') → ∀ mic : Int,
      _add_microseconds s mic = _add_microseconds (s ++ '.' :: zpad 6 0) mic) ∧
    (∀ dt : DateTime, validDT dt →
      sixDigitFraction (_add_microseconds (fmtL dt) 1) ∧
      sixDigitFraction (_add_microseconds (fmtL dt) (-1))) ∧
    (∀ dt : DateTime, validDT dt → dt.microsecond = 999999 →
      _add_microseconds (fmtL dt) 1 = fmtL { nextSecond dt with microsecond := 0 } ∧
      toMicros { nextSecond dt with microsecond := 0 } = toMicros dt + 1) ∧
    _get_fake_timestamp (some "2013-04-01T00:00:01.123456".data) none
      = "2013-04-01T00:00:01.123457".data ∧
    _add_microseconds "2013-04-01T00:00:01.999999".data 1
      = "2013-04-01T00:00:02.000000".data := by
  refine ⟨?_, ?_, ?_, by decide, by decide⟩
  · intro s hs mic
    have hne0 : (zpad 6 0).isEmpty = false := by
      cases hzp : zpad 6 0 with
      | nil => exact absurd hzp (zpad_ne_nil (by norm_num))
      | cons a l => rfl
    have hpy0 : pyInt (zpad 6 0) = some 0 := pyInt_zpad (by norm_num) (by norm_num)
    have hpy1 : pyInt ['0'] = some 0 := rfl
    unfold _add_microseconds
    rw [partitionDot_no_dot hs, partitionDot_append hs (zpad 6 0)]
    simp [hne0, hpy0, hpy1]
  · intro dt hv
    constructor
    · rw [add_micro_fmtL_general hv 1]
      split
      · exact ⟨fmtHead dt, _, rfl, fmtHead_no_dot dt, zpad_length _ _,
          fun c hc => zpad_all_digits c hc⟩
      · exact sixDigitFraction_fmtL _
    · rw [add_micro_fmtL_general hv (-1)]
      split
      · exact ⟨fmtHead dt, _, rfl, fmtHead_no_dot dt, zpad_length _ _,
          fun c hc => zpad_all_digits c hc⟩
      · exact sixDigitFraction_fmtL _
  · intro dt hv hmu
    have h2 : pyAddMicro1 dt = { nextSecond dt with microsecond := 0 } := by
      unfold pyAddMicro1
      rw [if_neg (by omega)]
    constructor
    · rw [add_one_micro_fmtL hv, h2]
    · rw [← h2]
      exact toMicros_pyAddMicro1 hv.1

/-- Claim C7: order preservation of gap timestamps — for well-formed
microsecond-precision ISO timestamps with `after` earlier than `before` by at
least two microseconds, `pick_gap_timestamp(after, before)` is lexicographically
strictly greater than `after` and strictly less than `before`; when `after` is
absent the result is strictly less than `before`, so a synthesized timestamp
never collides with the bounding real events. -/
theorem claim_C7 (dt1 dt2 : DateTime) (h1 : validDT dt1) (h2 : validDT dt2)
    (hgap : toMicros dt1 + 2 ≤ toMicros dt2) :
    (strLt (fmtL dt1) (_get_fake_timestamp (some (fmtL dt1)) (some (fmtL dt2))) = true ∧
      strLt (_get_fake_timestamp (some (fmtL dt1)) (some (fmtL dt2))) (fmtL dt2) = true) ∧
    strLt (_get_fake_timestamp none (some (fmtL dt2))) (fmtL dt2) = true := by
  have hmax := toMicros_lt_max h2
  have hvA : validDT (pyAddMicro1 dt1) := validDT_pyAddMicro1 h1 (by omega)
  have htm := @toMicros_pyAddMicro1 dt1 h1.1
  have hgapEq : _get_fake_timestamp (some (fmtL dt1)) (some (fmtL dt2))
      = fmtL (pyAddMicro1 dt1) := by
    rw [get_fake_some_fmtL, add_one_micro_fmtL h1]
  have hpos : 0 < toMicros dt2 := by omega
  have hvS : validDT (pySubMicro1 dt2) := validDT_pySubMicro1 h2 hpos
  have htmS := toMicros_pySubMicro1 h2.1 hpos
  have hsubEq : _get_fake_timestamp none (some (fmtL dt2)) = fmtL (pySubMicro1 dt2) := by
    rw [get_fake_none, sub_one_micro_fmtL h2]
  refine ⟨⟨?_, ?_⟩, ?_⟩
  · rw [hgapEq]
    exact strLt_fmtL h1 hvA (by omega)
  · rw [hgapEq]
    exact strLt_fmtL hvA h2 (by omega)
  · rw [hsubEq]
    exact strLt_fmtL hvS h2 (by omega)

/-- Claim C8: permutation invariance — two input event lists that are
permutations of the same multiset of `(timestamp, kind, is_active, created)`
tuples produce identical reconciliation output (records, diagnostics and final
state), element for element and in the same order. -/
theorem claim_C8 (ctx : VEvents) (l1 l2 : List InputTuple) (h : List.Perm l1 l2) :
    missing_enrolled ctx l1 = missing_enrolled ctx l2 := by
  unfold missing_enrolled sorted_events
  rw [sortEventsDesc_perm_eq h]

/-- Claim C9: noninterference of `require_validation` — for every course id,
user id, input event list and fixed setting of the other options, the output
record list with `require_validation` true is identical to the output with it
false; the flag influences only diagnostics. -/
theorem claim_C9 (course : String) (user : Nat) (intv : String) (eo gb : Bool)
    (lb : Str) (events : List InputTuple) :
    (missing_enrolled ⟨course, user, intv, eo, true, gb, lb⟩ events).missing =
      (missing_enrolled ⟨course, user, intv, eo, false, gb, lb⟩ events).missing := by
  unfold missing_enrolled
  exact scanEvents_rv course user intv eo true false gb lb _ none false

/-- Claim C10 as stated is false: with `generate_before` set, a Validated event
adjacent to the sentinel whose `created` field is null makes `check_transition`
emit a record whose synthesized timestamp is null. -/
theorem claim_C10_counterexample :
    ∃ r ∈ (missing_enrolled ⟨"c", 1, "i", false, false, true, "2013-01-01".data⟩
        [⟨"2013-06-01T00:00:00.000000".data, VALIDATED, some true, none⟩]).missing,
      recTimestamp r = none := by
  decide

/-- Claim C10 (amended): every record returned by `missing_enrolled` carries a
non-null synthesized timestamp, provided `generate_before` is false or every
Validated event in the input has a non-null `created` field. -/
theorem claim_C10 (ctx : VEvents) (events : List InputTuple)
    (h : ctx.generate_before = false ∨
      ∀ t ∈ events, t.event_type = VALIDATED → t.created ≠ none) :
    ∀ r ∈ (missing_enrolled ctx events).missing, (recTimestamp r).isSome :=
  missing_enrolled_timestamps ctx events h

/-! Concrete fixtures used by the witnesses. -/

def dtA : DateTime := ⟨2013, 4, 1, 0, 0, 1, 123456⟩

def dtB : DateTime := ⟨2013, 9, 1, 0, 0, 1, 123456⟩

def dt999 : DateTime := ⟨2013, 4, 1, 0, 0, 1, 999999⟩

def ctxW : VEvents :=
  ⟨"foo/bar/baz", 0, "2013-01-01-2014-10-10", false, false, true, "2013-01-01".data⟩

def ctxWF : VEvents :=
  ⟨"foo/bar/baz", 0, "2013-01-01-2014-10-10", false, false, false, "2013-01-01".data⟩

def evPrevV : EnrollmentEvent := ⟨some (fmtL dtA), VALIDATED, some false, some (fmtL dtA)⟩

def evCurrV : EnrollmentEvent := ⟨some (fmtL dtB), VALIDATED, some true, some (fmtL dtA)⟩

def evC2 : EnrollmentEvent := ⟨some (fmtL dtB), VALIDATED, some false, some (fmtL dtA)⟩

def evC3 : EnrollmentEvent :=
  ⟨some (fmtL dtB), VALIDATED, some true, some "2012-01-01T00:00:00.000000".data⟩

def evPrevA : EnrollmentEvent := ⟨some (fmtL dtA), ACTIVATED, none, none⟩

def evCurrA : EnrollmentEvent := ⟨some (fmtL dtB), ACTIVATED, none, none⟩

def evV : InputTuple :=
  ⟨"2013-09-01T00:00:01.123456".data, VALIDATED, some true,
    some "2013-04-01T00:00:01.123456".data⟩

def evA : InputTuple := ⟨"2013-04-01T00:00:01.123456".data, ACTIVATED, none, none⟩

def evD : InputTuple := ⟨"2013-05-01T00:00:01.123456".data, DEACTIVATED, none, none⟩

theorem claim_C1_witness :
    validDT dtA ∧
    (check_transition ctxW none evPrevV evCurrV).missing =
      [generate_output ctxW
        (some (_get_fake_timestamp evPrevV.timestamp evCurrV.timestamp))
        ACTIVATED (_get_transition_string evPrevV evCurrV)
        evPrevV.timestamp evCurrV.timestamp] :=
  ⟨by decide,
    (claim_C1 ctxW none evPrevV evCurrV dtA (fmtL dtB) false true rfl rfl rfl rfl rfl rfl
      (by decide)).1 rfl rfl⟩

theorem claim_C2_witness :
    validDT dtA ∧
    (check_transition ctxW none sentinel_event evC2).missing =
      [generate_output ctxW (some (fmtL dtA)) ACTIVATED
        (_get_transition_string sentinel_event evC2) (some (fmtL dtA)) evC2.timestamp,
       generate_output ctxW (some (fmtL (pyAddMicro1 dtA))) DEACTIVATED
        (_get_transition_string sentinel_event evC2) (some (fmtL dtA)) evC2.timestamp] :=
  ⟨by decide,
    (claim_C2 ctxW none sentinel_event evC2 dtA rfl rfl rfl rfl (by decide) (Or.inl rfl)).1⟩

theorem claim_C3_witness :
    strLt "2012-01-01T00:00:00.000000".data ctxWF.lower_bound_date_string = true ∧
    (check_transition ctxWF none sentinel_event evC3).missing = [] :=
  ⟨by decide,
    claim_C3 ctxWF none sentinel_event evC3 "2012-01-01T00:00:00.000000".data rfl rfl rfl
      (by decide) rfl⟩

theorem claim_C4_witness :
    toMicros dtA + 2 ≤ toMicros dtB ∧
    (check_transition ctxW none evPrevA evCurrA).missing =
      [generate_output ctxW (some (fmtL (pyAddMicro1 dtA))) DEACTIVATED
        (_get_transition_string evPrevA evCurrA) evPrevA.timestamp evCurrA.timestamp] :=
  ⟨by decide,
    (claim_C4 ctxW none evPrevA evCurrA dtA dtB rfl rfl (by decide) (by decide)
      (by decide)).1 rfl rfl⟩

theorem claim_C5_witness :
    (check_transition ctxW none sentinel_event evCurrV).creation_timestamp
        = evCurrV.created ∧
    strLt evV.timestamp evV.timestamp = false :=
  ⟨(claim_C5.1 ctxW none (some (fmtL dtB)) sentinel_event evCurrV rfl).1,
    claim_C5.2.2 [evV] evV (by decide) evV (by decide) rfl⟩

theorem claim_C6_witness :
    validDT dt999 ∧
    _add_microseconds (fmtL dt999) 1 = fmtL { nextSecond dt999 with microsecond := 0 } :=
  ⟨by decide, (claim_C6.2.2.1 dt999 (by decide) rfl).1⟩

theorem claim_C7_witness :
    validDT dtA ∧ validDT dtB ∧ toMicros dtA + 2 ≤ toMicros dtB ∧
    strLt (fmtL dtA) (_get_fake_timestamp (some (fmtL dtA)) (some (fmtL dtB))) = true :=
  ⟨by decide, by decide, by decide,
    ((claim_C7 dtA dtB (by decide) (by decide) (by decide)).1).1⟩

theorem claim_C8_witness :
    List.Perm [evV, evA, evD] [evD, evV, evA] ∧
    missing_enrolled ctxW [evV, evA, evD] = missing_enrolled ctxW [evD, evV, evA] :=
  ⟨by decide, claim_C8 ctxW [evV, evA, evD] [evD, evV, evA] (by decide)⟩

def recW : OutputRecord :=
  OutputRecord.tuple (some "2013-04-01".data) "foo/bar/baz" 0
    (some "2013-04-01T00:00:01.123456".data) ACTIVATED "start => validate(active)"
    (some "2013-04-01T00:00:01.123456".data) (some "2013-09-01T00:00:01.123456".data)

theorem claim_C10_witness :
    ctxWF.generate_before = false ∧ (recTimestamp recW).isSome = true :=
  ⟨rfl, claim_C10 ctxWF [evV] (Or.inl rfl) recW (by decide)⟩

end EnrollVal
